import Mathlib

/-!
# OverProto codec, fragmenter, reliable-UDP ARQ and TCP receive machine

A shallow embedding of the overproto-go sources (packages `core`,
`transport` and the top-level `overproto` package), with theorems about
the documented behaviours.  Byte sequences are `List Nat` with each byte
reduced modulo 256 where Go's integer types truncate; machine integers
are `Nat` with explicit `% 2^w` at the points where Go's unsigned
arithmetic can wrap.
-/

namespace OverProto

/-! ## CRC32 (core: CRC32Context, crc32Table, Update, Final) -/

/-- IEEE 802.3 reversed polynomial, as in `initCRC32Table`. -/
def crc32Poly : Nat := 0xEDB88320

/-- One round of the inner loop of `initCRC32Table`:
`if crc&1 != 0 { crc = (crc >> 1) ^ poly } else { crc >>= 1 }`. -/
def crc32BitStep (c : Nat) : Nat :=
  if c &&& 1 ≠ 0 then (c >>> 1) ^^^ crc32Poly else c >>> 1

/-- `crc32Table[i]`: eight rounds of `crc32BitStep` applied to `i`
(the body of `initCRC32Table`). -/
def crc32TableEntry (i : Nat) : Nat := crc32BitStep^[8] i

/-- `CRC32Context.Update` for a single byte:
`ctx.crc = (ctx.crc >> 8) ^ crc32Table[(ctx.crc^uint32(b))&0xFF]`. -/
def crc32UpdateByte (c b : Nat) : Nat :=
  (c >>> 8) ^^^ crc32TableEntry ((c ^^^ b) &&& 0xFF)

/-- `CRC32Context.Update` over a byte slice. -/
def crc32Update (c : Nat) (data : List Nat) : Nat :=
  data.foldl crc32UpdateByte c

/-- `ComputeCRC32`: init `0xFFFFFFFF`, update, final XOR `0xFFFFFFFF`. -/
def ComputeCRC32 (data : List Nat) : Nat :=
  crc32Update 0xFFFFFFFF data ^^^ 0xFFFFFFFF

/-! ## Big-endian byte encoding (`encoding/binary` BigEndian) -/

/-- `binary.BigEndian.PutUint16`: two bytes, most significant first.
The `% 256` is Go's `byte(...)` truncation. -/
def be16 (v : Nat) : List Nat := [(v >>> 8) % 256, v % 256]

/-- `binary.BigEndian.PutUint32`: four bytes, most significant first. -/
def be32 (v : Nat) : List Nat :=
  [(v >>> 24) % 256, (v >>> 16) % 256, (v >>> 8) % 256, v % 256]

/-- Read a byte at offset `i` (0 when out of range; all uses are
guarded by length checks as in the source). -/
def byteAt (d : List Nat) (i : Nat) : Nat := d.getD i 0

/-- `binary.BigEndian.Uint16` at offset `i`. -/
def read16 (d : List Nat) (i : Nat) : Nat :=
  (byteAt d i) <<< 8 ||| byteAt d (i+1)

/-- `binary.BigEndian.Uint32` at offset `i`. -/
def read32 (d : List Nat) (i : Nat) : Nat :=
  (byteAt d i) <<< 24 ||| (byteAt d (i+1)) <<< 16 |||
  (byteAt d (i+2)) <<< 8 ||| byteAt d (i+3)

/-! ## Packet header (core/packet.go) -/

/-- Constants from core/common.go. -/
def MagicConst : Nat := 0xABCD

def VersionConst : Nat := 0x01

def HeaderSize : Nat := 24

def FragMaxFragments : Nat := 256

def FlagFragment : Nat := 0x01

def FlagCompressed : Nat := 0x02

def FlagEncrypted : Nat := 0x04

def FlagReliable : Nat := 0x08

def FlagACK : Nat := 0x10

/-- `core.PacketHeader`.  The Go struct's `CRC32` field (in-memory
only, never the wire CRC) is called `crc32mem` here to avoid clashing
with the checksum functions. -/
structure PacketHeader where
  magic : Nat
  version : Nat
  flags : Nat
  opcode : Nat
  proto : Nat
  streamID : Nat
  seq : Nat
  fragID : Nat
  totalFrags : Nat
  payloadLen : Nat
  timestamp : Nat
  crc32mem : Nat
deriving Repr, DecidableEq

/-- Well-formedness: every field fits the width of its Go type. -/
def PacketHeader.WF (h : PacketHeader) : Prop :=
  h.magic < 2^16 ∧ h.version < 2^8 ∧ h.flags < 2^8 ∧ h.opcode < 2^8 ∧
  h.proto < 2^8 ∧ h.streamID < 2^32 ∧ h.seq < 2^32 ∧ h.fragID < 2^16 ∧
  h.totalFrags < 2^16 ∧ h.payloadLen < 2^16 ∧ h.timestamp < 2^32 ∧
  h.crc32mem < 2^32

instance (h : PacketHeader) : Decidable h.WF := by
  unfold PacketHeader.WF; infer_instance

/-- Codec error kinds, one per `errors.New` site in core/packet.go. -/
inductive CodecError
  | payloadTooLarge
  | truncated
  | badMagic
  | badVersion
  | lengthOverflow
  | crcMismatch
deriving Repr, DecidableEq

/-- The 24 header bytes exactly as `Serialize` writes them: all wire
fields big-endian, and the word at offset 20 forced to zero
(`binary.BigEndian.PutUint32(headerBuf[20:24], 0)`). -/
def headerBytes (h : PacketHeader) : List Nat :=
  be16 h.magic ++ [h.version % 256, h.flags % 256, h.opcode % 256, h.proto % 256] ++
  be32 h.streamID ++ be32 h.seq ++ be16 h.fragID ++ be16 h.totalFrags ++
  be16 h.payloadLen ++ be32 0

/-- `core.Serialize`: header(24) ‖ payload ‖ crc32(4, big-endian), the
CRC taken over the header bytes as written followed by the payload.
(The source's tautological `len(headerBuf)` guards on a fresh 24-byte
buffer are elided.) -/
def Serialize (hdr : PacketHeader) (payload : List Nat) :
    Except CodecError (List Nat) :=
  if payload.length > 65535 then .error .payloadTooLarge
  else
    let headerBuf := headerBytes hdr
    let crc := ComputeCRC32 (headerBuf ++ payload)
    .ok (headerBuf ++ payload ++ be32 crc)

/-- `core.ValidateHeader`: magic then version. -/
def ValidateHeader (hdr : PacketHeader) : Except CodecError Unit :=
  if hdr.magic ≠ MagicConst then .error .badMagic
  else if hdr.version ≠ VersionConst then .error .badVersion
  else .ok ()

/-- The header-field reads at the top of `core.Deserialize` (the Go
code fills a zero-valued `&PacketHeader{}`, so the in-memory CRC32
field stays 0). -/
def readHeader (data : List Nat) : PacketHeader :=
  { magic := read16 data 0
    version := byteAt data 2
    flags := byteAt data 3
    opcode := byteAt data 4
    proto := byteAt data 5
    streamID := read32 data 6
    seq := read32 data 10
    fragID := read16 data 14
    totalFrags := read16 data 16
    payloadLen := read16 data 18
    timestamp := read32 data 20
    crc32mem := 0 }

/-- `core.Deserialize`.  Reads the header fields (including the wire
timestamp word at offset 20), validates magic/version, bounds the
payload, and compares the trailing four bytes against the CRC over the
received header bytes followed by the extracted payload. -/
def Deserialize (data : List Nat) :
    Except CodecError (PacketHeader × List Nat) :=
  if data.length < HeaderSize + 4 then .error .truncated
  else
    match ValidateHeader (readHeader data) with
    | .error e => .error e
    | .ok _ =>
      if HeaderSize + (readHeader data).payloadLen > data.length - 4 then
        .error .lengthOverflow
      else
        if read32 data (data.length - 4) ≠
            ComputeCRC32 (data.take HeaderSize ++
              (data.drop HeaderSize).take (readHeader data).payloadLen) then
          .error .crcMismatch
        else .ok (readHeader data, (data.drop HeaderSize).take (readHeader data).payloadLen)

/-! ## Fragmenter (core/fragment.go) -/

/-- Go `uint` (64-bit) wrapping subtraction. -/
def usub64 (a b : Nat) : Nat := (a + (2^64 - b % 2^64)) % 2^64

/-- Error kinds of core/fragment.go, plus `codec` for an error
propagated out of `Serialize`. -/
inductive FragError
  | mtuTooSmall
  | tooManyFragments
  | invalidFragID
  | notAllFragments
  | missingFragment
  | codec (e : CodecError)
deriving Repr, DecidableEq

/-- `offset := uint(i) * maxFragPayload` of the `FragmentPacket` loop. -/
def fragOffset (maxFrag i : Nat) : Nat := (i * maxFrag) % 2^64

/-- The loop's fragment size: `maxFrag`, clipped to the remainder for
the last fragment (Go `uint` comparisons and subtraction). -/
def fragSize (payload : List Nat) (maxFrag i : Nat) : Nat :=
  if (fragOffset maxFrag i + maxFrag) % 2^64 > payload.length
  then usub64 payload.length (fragOffset maxFrag i) else maxFrag

/-- `payload[offset : offset+fragSize]`. -/
def fragSlice (payload : List Nat) (maxFrag i : Nat) : List Nat :=
  (payload.drop (fragOffset maxFrag i)).take (fragSize payload maxFrag i)

/-- The stamped per-fragment header: `flags |= FRAG`, `frag_id = i`,
`total_frags`/`payload_len` truncated by their uint16 casts. -/
def fragHeaderOf (hdr : PacketHeader) (totalFrags : Nat) (payload : List Nat)
    (maxFrag i : Nat) : PacketHeader :=
  { hdr with flags := hdr.flags ||| FlagFragment, fragID := i,
             totalFrags := totalFrags % 2^16,
             payloadLen := fragSize payload maxFrag i % 2^16 }

/-- The loop body of `FragmentPacket` over a list of fragment indices:
serialize each fragment independently, abort on the first error. -/
def fragmentsFrom (hdr : PacketHeader) (payload : List Nat) (totalFrags maxFrag : Nat) :
    List Nat → Except FragError (List (List Nat × PacketHeader))
  | [] => .ok []
  | i :: rest =>
    match Serialize (fragHeaderOf hdr totalFrags payload maxFrag i)
        (fragSlice payload maxFrag i) with
    | .error e => .error (.codec e)
    | .ok bytes =>
      match fragmentsFrom hdr payload totalFrags maxFrag rest with
      | .error e => .error e
      | .ok tail => .ok ((bytes, fragHeaderOf hdr totalFrags payload maxFrag i) :: tail)

/-- `total_frags = (payload_size + max_frag_payload - 1) / max_frag_payload`
with Go `uint` wrapping on the addition and subtraction. -/
def fragTotal (payload : List Nat) (maxFrag : Nat) : Nat :=
  usub64 ((payload.length + maxFrag) % 2^64) 1 / maxFrag

/-- `core.FragmentPacket`.  `mtu` is a Go `uint`, so
`mtu - HeaderSize - 4` wraps below 28; the "MTU too small" guard is
`<= 0`, which for an unsigned value only fires on 0.  Returns
`.ok none` for "no fragmentation needed". -/
def FragmentPacket (hdr : PacketHeader) (payload : List Nat) (mtu : Nat) :
    Except FragError (Option (List (List Nat × PacketHeader))) :=
  if usub64 (usub64 mtu HeaderSize) 4 = 0 then .error .mtuTooSmall
  else if payload.length ≤ usub64 (usub64 mtu HeaderSize) 4 then .ok none
  else if fragTotal payload (usub64 (usub64 mtu HeaderSize) 4) > FragMaxFragments then
    .error .tooManyFragments
  else
    match fragmentsFrom hdr payload
        (fragTotal payload (usub64 (usub64 mtu HeaderSize) 4))
        (usub64 (usub64 mtu HeaderSize) 4)
        (List.range (fragTotal payload (usub64 (usub64 mtu HeaderSize) 4))) with
    | .error e => .error e
    | .ok frags => .ok (some frags)

/-- The i-th payload slice in the normal regime: the i-th
`m`-sized chunk, the last one the remainder. -/
def fragSpecSlice (payload : List Nat) (m i : Nat) : List Nat :=
  (payload.drop (i * m)).take (min m (payload.length - i * m))

/-- The i-th stamped fragment header in the normal regime:
`flags | FRAG`, `frag_id = i`, `total_frags = N`, `payload_len` the
size of slice i. -/
def fragSpecHeader (hdr : PacketHeader) (payload : List Nat) (m N i : Nat) :
    PacketHeader :=
  { hdr with flags := hdr.flags ||| FlagFragment, fragID := i,
             totalFrags := N, payloadLen := min m (payload.length - i * m) }

/-- The i-th fragment `FragmentPacket` produces in its normal regime
(`max_frag = mtu - 28 ≤ 65535`): the serialized bytes with their own
CRC, paired with the stamped header. -/
def fragSpec (hdr : PacketHeader) (payload : List Nat) (m N i : Nat) :
    List Nat × PacketHeader :=
  (headerBytes (fragSpecHeader hdr payload m N i) ++ fragSpecSlice payload m i ++
     be32 (ComputeCRC32
       (headerBytes (fragSpecHeader hdr payload m N i) ++ fragSpecSlice payload m i)),
   fragSpecHeader hdr payload m N i)

/-- `core.FragmentContext` (reassembly state); `createdAt` is wall
time in milliseconds. -/
structure FragmentContext where
  streamID : Nat
  seq : Nat
  totalFrags : Nat
  receivedFrags : Nat
  fragments : List (Option (List Nat))
  fragSizes : List Nat
  createdAt : Nat
  header : Option PacketHeader
  receivedPayloadSize : Nat
deriving Repr, DecidableEq

/-- `core.NewFragmentContext`. -/
def NewFragmentContext (streamID seq totalFrags now : Nat) : FragmentContext :=
  { streamID := streamID, seq := seq, totalFrags := totalFrags,
    receivedFrags := 0, fragments := List.replicate 256 none,
    fragSizes := List.replicate 256 0, createdAt := now,
    header := none, receivedPayloadSize := 0 }

/-- The updated context a fresh (non-duplicate) `AddFragment` builds. -/
def addFragmentCtx (ctx : FragmentContext) (fragID : Nat) (hdr : PacketHeader)
    (data : List Nat) : FragmentContext :=
  { ctx with
    fragments := ctx.fragments.set fragID (some data)
    fragSizes := ctx.fragSizes.set fragID (data.length % 2^16)
    receivedFrags := ctx.receivedFrags + 1
    receivedPayloadSize := ctx.receivedPayloadSize + data.length
    header := if fragID = 0 then some hdr else ctx.header }

/-- `FragmentContext.AddFragment`: reject `frag_id ≥ total_frags`,
silently ignore duplicates, store the fragment, count it, keep the
header of fragment 0, and report completion when every fragment has
been received.  (The Go array write would panic for `frag_id ≥ 256`;
that needs `total_frags > 256`, which `FragmentPacket` never emits.) -/
def AddFragment (ctx : FragmentContext) (fragID : Nat) (hdr : PacketHeader)
    (data : List Nat) : Except FragError (FragmentContext × Bool) :=
  if fragID ≥ ctx.totalFrags then .error .invalidFragID
  else if (ctx.fragments.getD fragID none).isSome then .ok (ctx, false)
  else .ok (addFragmentCtx ctx fragID hdr data,
    decide ((addFragmentCtx ctx fragID hdr data).receivedFrags = ctx.totalFrags))

/-- The reassembled payload: the fragment slots in ascending index
order. -/
def assemblePayload (ctx : FragmentContext) : List Nat :=
  (List.range ctx.totalFrags).flatMap (fun i => (ctx.fragments.getD i none).getD [])

/-- `FragmentContext.Assemble`: require all fragments, concatenate the
slots in ascending index order, clear the FRAG flag (`&^=`, modelled
with `Nat.ldiff`), zero `frag_id`/`total_frags`, and set `payload_len`
to the assembled length truncated by its uint16 cast.  (The `none`
header case is the Go nil dereference, unreachable when all fragments
are present since fragment 0 sets the header.) -/
def Assemble (ctx : FragmentContext) : Except FragError (PacketHeader × List Nat) :=
  if ctx.receivedFrags ≠ ctx.totalFrags then .error .notAllFragments
  else if (List.range ctx.totalFrags).any
      (fun i => (ctx.fragments.getD i none).isNone) then .error .missingFragment
  else
    match ctx.header with
    | none => .error .missingFragment
    | some h0 =>
      .ok ({ h0 with flags := Nat.ldiff h0.flags FlagFragment, fragID := 0,
                     totalFrags := 0,
                     payloadLen := (assemblePayload ctx).length % 2^16 },
        assemblePayload ctx)

/-- Feeding a list of `(frag_id, header, data)` triples through
`AddFragment`, left to right. -/
def feedAll (ctx : FragmentContext) :
    List (Nat × PacketHeader × List Nat) → Except FragError FragmentContext
  | [] => .ok ctx
  | (i, h, d) :: rest =>
    match AddFragment ctx i h d with
    | .error e => .error e
    | .ok (ctx', _) => feedAll ctx' rest

/-- Everything `AddFragment` and `Assemble` observe about a reassembly
context after the fragment triples of the indices in `fed` (duplicates
allowed) have been fed: the total, the distinct count, the slots, and
the fragment-0 header. -/
def FragInv (N : Nat) (slices : Nat → List Nat) (hdr0 : PacketHeader)
    (fed : List Nat) (ctx : FragmentContext) : Prop :=
  ctx.totalFrags = N ∧
  ctx.fragments.length = 256 ∧
  ctx.receivedFrags = (List.range N).countP (fun i => decide (i ∈ fed)) ∧
  (∀ i, i < 256 → ctx.fragments.getD i none
      = if i ∈ fed ∧ i < N then some (slices i) else none) ∧
  ctx.header = (if 0 ∈ fed then some hdr0 else none)

/-- Claim-side byte update: XOR the byte into the register, then run
eight reflected-polynomial bit rounds.  This is the textbook form of
CRC32 with polynomial 0xEDB88320, reflected input. -/
def crc32UpdateByteBitwise (c b : Nat) : Nat := crc32BitStep^[8] (c ^^^ b)

/-- Claim-side CRC32: init 0xFFFFFFFF, bitwise byte rounds, post-XOR
0xFFFFFFFF. -/
def crc32Bitwise (data : List Nat) : Nat :=
  data.foldl crc32UpdateByteBitwise 0xFFFFFFFF ^^^ 0xFFFFFFFF

/-- Claim side for the Deserialize failure taxonomy: which error the
claim says `Deserialize` returns, with the conditions checked in the
claimed order (`none` = success).  The "received trailer" is the final
four bytes of the buffer. -/
def deserializeClaimedError (data : List Nat) : Option CodecError :=
  if data.length < 28 then some .truncated
  else if read16 data 0 ≠ 0xABCD then some .badMagic
  else if byteAt data 2 ≠ 0x01 then some .badVersion
  else if 24 + read16 data 18 + 4 > data.length then some .lengthOverflow
  else if read32 data (data.length - 4) ≠
      ComputeCRC32 (data.take 24 ++ (data.drop 24).take (read16 data 18)) then
    some .crcMismatch
  else none

/-- The error of an `Except` result, `none` on success. -/
def errOf {α : Type} : Except CodecError α → Option CodecError
  | .error e => some e
  | .ok _ => none

/-- Decidable equality on `Except` (not provided by core). -/
def exceptEqDec {ε α : Type} [DecidableEq ε] [DecidableEq α] :
    DecidableEq (Except ε α) := fun x y =>
  match x, y with
  | .error e, .error f =>
    if h : e = f then isTrue (by rw [h]) else isFalse (by simp [h])
  | .error _, .ok _ => isFalse (by simp)
  | .ok _, .error _ => isFalse (by simp)
  | .ok a, .ok b =>
    if h : a = b then isTrue (by rw [h]) else isFalse (by simp [h])

instance {ε α : Type} [DecidableEq ε] [DecidableEq α] : DecidableEq (Except ε α) :=
  exceptEqDec

/-! ## Reliable UDP transport (transport/udp_mtu_linux.go)

The send side of `ReliableContext`: sliding window, duplicate-ACK
handling, RTT estimation and congestion control.  Socket writes are
returned as lists of serialized datagrams instead of being performed;
the RTT sample (`time.Since(slot.SentAt)` in Go) and the send time
(`time.Now()`) are environment parameters. -/

/-- Go `uint32` wrapping addition. -/
def uadd32 (a b : Nat) : Nat := (a + b) % 2^32

/-- Go `uint32` wrapping subtraction. -/
def usub32 (a b : Nat) : Nat := (a + (2^32 - b % 2^32)) % 2^32

/-- Go `uint32` wrapping multiplication. -/
def umul32 (a b : Nat) : Nat := (a * b) % 2^32

/-- `PacketState`: the state of a window slot. -/
inductive PacketState
  | empty
  | sent
  | acked
  | retransmit
deriving Repr, DecidableEq

/-- `WindowSlot`. -/
structure WindowSlot where
  header : Option PacketHeader
  data : List Nat
  serialized : List Nat
  state : PacketState
  sentAt : Nat
  retryCount : Nat
deriving Repr, DecidableEq

/-- The Go zero value `WindowSlot{}`. -/
def emptySlot : WindowSlot :=
  { header := none, data := [], serialized := [], state := .empty,
    sentAt := 0, retryCount := 0 }

/-- `ReliableContext` (the pure state; the socket, peer address and
mutex are environment).  `sendWindow` and `recvWindow` are the
32-entry arrays. -/
structure ReliableContext where
  sendWindow : List WindowSlot
  sendBase : Nat
  nextSeq : Nat
  windowSize : Nat
  recvBase : Nat
  recvWindow : List Bool
  srtt : Nat
  rttvar : Nat
  rto : Nat
  samplesCount : Nat
  cwnd : Nat
  ssthresh : Nat
  dupACKCount : Nat
  lastACKSeq : Nat
  inSlowStart : Bool
deriving Repr, DecidableEq

/-- `NewReliableContext`: WindowSize 32, InitialCwnd 4, ssthresh
MaxCwnd = 32, SRTT = InitialRTT = 100, RTTVar = 50, RTO = 100+4·50,
and the Go zero values for the fields the constructor does not set
(`dupACKCount`, `lastACKSeq`, the windows). -/
def NewReliableContext : ReliableContext :=
  { sendWindow := List.replicate 32 emptySlot
    sendBase := 0
    nextSeq := 0
    windowSize := 32
    recvBase := 0
    recvWindow := List.replicate 32 false
    srtt := 100
    rttvar := 50
    rto := 300
    samplesCount := 0
    cwnd := 4
    ssthresh := 32
    dupACKCount := 0
    lastACKSeq := 0
    inSlowStart := true }

/-- `getWindowIndex`: `seq % WindowSize`. -/
def getWindowIndex (seq : Nat) : Nat := seq % 32

/-- `isInSendWindow`, with the uint32-wrap special case. -/
def ReliableContext.isInSendWindow (ctx : ReliableContext) (seq : Nat) : Bool :=
  if ctx.sendBase ≤ seq ∧ seq < uadd32 ctx.sendBase ctx.windowSize then true
  else if uadd32 ctx.sendBase ctx.windowSize < ctx.sendBase then
    decide (ctx.sendBase ≤ seq) || decide (seq < uadd32 ctx.sendBase ctx.windowSize)
  else false

/-- Packets in flight: `ctx.nextSeq - ctx.sendBase` (uint32). -/
def ReliableContext.inflight (ctx : ReliableContext) : Nat :=
  usub32 ctx.nextSeq ctx.sendBase

/-- `availableSlots` before the clamps: `windowSize - inflight`. -/
def ReliableContext.avail0 (ctx : ReliableContext) : Nat :=
  usub32 ctx.windowSize ctx.inflight

/-- After the first clamp `if availableSlots > windowSize`. -/
def ReliableContext.avail1 (ctx : ReliableContext) : Nat :=
  if ctx.avail0 > ctx.windowSize then ctx.windowSize else ctx.avail0

/-- After the second clamp `if availableSlots == 0 || availableSlots > cwnd`. -/
def ReliableContext.availableSlots (ctx : ReliableContext) : Nat :=
  if ctx.avail1 = 0 ∨ ctx.avail1 > ctx.cwnd then ctx.cwnd else ctx.avail1

/-- Errors of the reliable send path. -/
inductive ReliableError
  | sendWindowFull
  | codec (e : CodecError)
deriving Repr, DecidableEq

/-- The per-packet header copy made by `ReliableContext.Send`:
assigns the sequence number and forces `FlagReliable`. -/
def sendStamp (hdr : PacketHeader) (seq : Nat) : PacketHeader :=
  { hdr with seq := seq, flags := hdr.flags ||| FlagReliable }

/-- The freshly filled `WindowSlot` stored by `Send`. -/
def sentSlot (hdr : PacketHeader) (payload serialized : List Nat) (now : Nat) : WindowSlot :=
  { header := some hdr, data := payload, serialized := serialized,
    state := .sent, sentAt := now, retryCount := 0 }

/-- `ReliableContext.Send`: window-capacity check, sequence
assignment, serialization, slot storage; the returned list is the
datagram handed to `WriteToUDP`. -/
def ReliableContext.Send (ctx : ReliableContext) (hdr : PacketHeader)
    (payload : List Nat) (now : Nat) :
    Except ReliableError (ReliableContext × List Nat) :=
  if ctx.inflight ≥ ctx.availableSlots then .error .sendWindowFull
  else
    match Serialize (sendStamp hdr ctx.nextSeq) payload with
    | .error e => .error (.codec e)
    | .ok serialized => .ok
      ({ ctx with
          nextSeq := uadd32 ctx.nextSeq 1
          sendWindow := ctx.sendWindow.set (getWindowIndex ctx.nextSeq)
            (sentSlot (sendStamp hdr ctx.nextSeq) payload serialized now) },
        serialized)

/-- The window slot addressed by an ACK. -/
def ReliableContext.ackSlot (ctx : ReliableContext) (ackSeq : Nat) : WindowSlot :=
  ctx.sendWindow.getD (getWindowIndex ackSeq) emptySlot

/-- The duplicate-ACK branch of `ProcessACK`: increment
`dupACKCount`; on the third duplicate fast-retransmit a `Sent` slot. -/
def ReliableContext.dupBranch (ctx : ReliableContext) (ackSeq : Nat) :
    ReliableContext × List (List Nat) :=
  if uadd32 ctx.dupACKCount 1 = 3 ∧ (ctx.ackSlot ackSeq).state = PacketState.sent then
    ({ ctx with
        dupACKCount := uadd32 ctx.dupACKCount 1
        sendWindow := ctx.sendWindow.set (getWindowIndex ackSeq)
          { ctx.ackSlot ackSeq with state := PacketState.retransmit } },
      [(ctx.ackSlot ackSeq).serialized])
  else ({ ctx with dupACKCount := uadd32 ctx.dupACKCount 1 }, [])

/-- `|rtt - SRTT|` as computed branch-wise in `updateRTT`. -/
def rttDelta (rtt srtt : Nat) : Nat := if rtt > srtt then rtt - srtt else srtt - rtt

/-- `updateRTT`'s new RTTVar: `(3*RTTVar + delta) / 4` in uint32. -/
def newRTTVar (ctx : ReliableContext) (rtt : Nat) : Nat :=
  uadd32 (umul32 3 ctx.rttvar) (rttDelta rtt ctx.srtt) / 4

/-- `updateRTT`'s new SRTT: `(7*SRTT + rtt) / 8` in uint32. -/
def newSRTT (ctx : ReliableContext) (rtt : Nat) : Nat :=
  uadd32 (umul32 7 ctx.srtt) rtt / 8

/-- `updateRTT`: first sample initializes, later samples smooth;
`RTO = SRTT + 4*RTTVar` from the updated values. -/
def updateRTT (ctx : ReliableContext) (rtt : Nat) : ReliableContext :=
  if ctx.samplesCount = 0 then
    { ctx with
        srtt := rtt
        rttvar := rtt / 2
        rto := uadd32 rtt (umul32 4 (rtt / 2))
        samplesCount := ctx.samplesCount + 1 }
  else
    { ctx with
        rttvar := newRTTVar ctx rtt
        srtt := newSRTT ctx rtt
        rto := uadd32 (newSRTT ctx rtt) (umul32 4 (newRTTVar ctx rtt))
        samplesCount := ctx.samplesCount + 1 }

/-- `updateCongestionWindow`: slow start increments `cwnd` and leaves
slow start at `ssthresh`; congestion avoidance adds the integer
`1/cwnd`; both clamp at MaxCwnd = 32.  (Go would panic on `1/0`;
`cwnd` is never zero in reachable states, Nat division gives 0.) -/
def updateCongestionWindow (ctx : ReliableContext) : ReliableContext :=
  if ctx.inSlowStart then
    { ctx with
        cwnd := if uadd32 ctx.cwnd 1 > 32 then 32 else uadd32 ctx.cwnd 1
        inSlowStart := decide (uadd32 ctx.cwnd 1 < ctx.ssthresh) }
  else
    { ctx with
        cwnd := if uadd32 ctx.cwnd (1 / ctx.cwnd) > 32 then 32
          else uadd32 ctx.cwnd (1 / ctx.cwnd) }

/-- Fresh-ACK bookkeeping: reset `dupACKCount`, record `lastACKSeq`. -/
def freshBase (ctx : ReliableContext) (ackSeq : Nat) : ReliableContext :=
  { ctx with dupACKCount := 0, lastACKSeq := ackSeq }

/-- Take the RTT sample iff `RetryCount == 0 && State == Sent`. -/
def rttApplied (ctx : ReliableContext) (ackSeq rtt : Nat) : ReliableContext :=
  if (ctx.ackSlot ackSeq).retryCount = 0 ∧ (ctx.ackSlot ackSeq).state = PacketState.sent
  then updateRTT (freshBase ctx ackSeq) rtt
  else freshBase ctx ackSeq

/-- Mark the ACKed slot. -/
def ackedCtx (ctx : ReliableContext) (ackSeq rtt : Nat) : ReliableContext :=
  { rttApplied ctx ackSeq rtt with
      sendWindow := (rttApplied ctx ackSeq rtt).sendWindow.set (getWindowIndex ackSeq)
        { ctx.ackSlot ackSeq with state := PacketState.acked } }

/-- The base-advance loop at the end of `ProcessACK`: clear
consecutive ACKed slots from `sendBase` up.  The loop clears each of
the 32 window indices at most once, so fuel 33 covers every Go
execution. -/
def advanceBase : Nat → ReliableContext → ReliableContext
  | 0, ctx => ctx
  | fuel+1, ctx =>
    if ctx.sendBase < ctx.nextSeq then
      if (ctx.sendWindow.getD (getWindowIndex ctx.sendBase) emptySlot).state
          = PacketState.acked then
        advanceBase fuel
          { ctx with
              sendWindow := ctx.sendWindow.set (getWindowIndex ctx.sendBase) emptySlot
              sendBase := uadd32 ctx.sendBase 1 }
      else ctx
    else ctx

/-- `ReliableContext.ProcessACK`, returning the new state and the
list of datagrams written (fast retransmissions).  `rtt` is the
sample `time.Since(slot.SentAt)` the Go code would measure. -/
def ReliableContext.ProcessACK (ctx : ReliableContext) (ackSeq rtt : Nat) :
    ReliableContext × List (List Nat) :=
  if ctx.isInSendWindow ackSeq = true then
    if (ctx.ackSlot ackSeq).state = PacketState.empty ∨
        (ctx.ackSlot ackSeq).state = PacketState.acked then (ctx, [])
    else if ackSeq = ctx.lastACKSeq then ctx.dupBranch ackSeq
    else (advanceBase 33 (updateCongestionWindow (ackedCtx ctx ackSeq rtt)), [])
  else (ctx, [])

/-! ### Concrete reliable-transport scenarios -/

/-- A plain data header used in the reliable-transport scenarios. -/
def rcHdr : PacketHeader :=
  { magic := 0xABCD, version := 1, flags := 0, opcode := 1, proto := 2,
    streamID := 7, seq := 0, fragID := 0, totalFrags := 0,
    payloadLen := 0, timestamp := 0, crc32mem := 0 }

/-- One window-growth round: send two packets, then ACK them
out of order (second first), which avoids the duplicate-ACK trap on
the zero-initialized `lastACKSeq` and advances the base by two while
growing `cwnd` by two. -/
def c4Pair (ctx : ReliableContext) : Except ReliableError ReliableContext :=
  match ctx.Send rcHdr [] 0 with
  | .error e => .error e
  | .ok (c1, _) =>
    match c1.Send rcHdr [] 0 with
    | .error e => .error e
    | .ok (c2, _) =>
      .ok ((c2.ProcessACK (uadd32 ctx.nextSeq 1) 0).1.ProcessACK ctx.nextSeq 0).1

/-- Iterate `c4Pair`. -/
def c4Iter : Nat → ReliableContext → Except ReliableError ReliableContext
  | 0, ctx => .ok ctx
  | k+1, ctx =>
    match c4Pair ctx with
    | .error e => .error e
    | .ok c => c4Iter k c

/-- The context reached from a fresh one after 14 growth rounds:
empty window, `cwnd = 32`. -/
def c4Ctx32 : ReliableContext :=
  match c4Iter 14 NewReliableContext with
  | .ok c => c
  | .error _ => NewReliableContext

/-- `k` consecutive `Send` calls with no intervening ACKs. -/
def sendN : Nat → ReliableContext → Except ReliableError ReliableContext
  | 0, ctx => .ok ctx
  | k+1, ctx =>
    match ctx.Send rcHdr [] 0 with
    | .error e => .error e
    | .ok (c, _) => sendN k c

/-- The context after 16 consecutive sends from `c4Ctx32`. -/
def c4Ctx16 : ReliableContext :=
  match sendN 16 c4Ctx32 with
  | .ok c => c
  | .error _ => NewReliableContext

/-- Whether an `Except` is a success. -/
def isOkE {ε α : Type} : Except ε α → Bool
  | .ok _ => true
  | .error _ => false

/-- A fresh context with one packet in flight (sequence number 0). -/
def c8Ctx1 : ReliableContext :=
  match NewReliableContext.Send rcHdr [] 0 with
  | .ok (c, _) => c
  | .error _ => NewReliableContext

/-! ## TCP receive state machine (transport/tcp.go)

The socket is modelled as the list of bytes it will deliver before
the next read error (deadline expiry, cancellation, EOF): `readExact`
succeeds iff enough bytes remain.  On failure Go's `readExact` has
already copied whatever arrived into the target slice, so the model
splices the remaining stream into the buffer region before erroring. -/

/-- `TCPRecvState`. -/
inductive TCPRecvState
  | idle
  | readingHeader
  | readingPayload
  | readingCRC
  | ready
deriving Repr, DecidableEq

/-- `TCPConnection` (pure part: state machine fields only). -/
structure TCPConnection where
  recvState : TCPRecvState
  recvBuffer : List Nat
  recvBytesRead : Nat
deriving Repr, DecidableEq

/-- `NewTCPConnection`: Idle, 64 KiB zero buffer. -/
def NewTCPConnection : TCPConnection :=
  { recvState := .idle, recvBuffer := List.replicate 65536 0, recvBytesRead := 0 }

/-- TCP receive errors: a socket-level read error, a codec error from
`Deserialize`, or model fuel exhaustion (unreachable from the five
machine states). -/
inductive TCPError
  | readErr
  | codec (e : CodecError)
  | outOfFuel
deriving Repr, DecidableEq

/-- Overwrite `buffer[lo : lo+len(bs)]` with `bs`. -/
def spliceAt (buffer : List Nat) (lo : Nat) (bs : List Nat) : List Nat :=
  buffer.take lo ++ bs ++ buffer.drop (lo + bs.length)

/-- `readExact` against the byte stream: deliver exactly `n` bytes or
fail. -/
def readExact (stream : List Nat) (n : Nat) : Option (List Nat × List Nat) :=
  if n ≤ stream.length then some (stream.take n, stream.drop n) else none

/-- End of the `StateReadingHeader` arm: extract `payload_len` from
bytes 18–19, grow the buffer to `HeaderSize + payload_len + 4` if
needed (zero-filled past the copied header), move to
`StateReadingPayload` with 24 bytes read. -/
def headerDone (conn : TCPConnection) : TCPConnection :=
  if 24 + read16 conn.recvBuffer 18 + 4 > conn.recvBuffer.length then
    { recvState := .readingPayload,
      recvBuffer := conn.recvBuffer.take 24 ++
        List.replicate (24 + read16 conn.recvBuffer 18 + 4 - 24) 0,
      recvBytesRead := 24 }
  else { conn with recvState := .readingPayload, recvBytesRead := 24 }

/-- One iteration of `TCPRecv`'s `for`/`switch` loop: either a new
machine state to continue from (`inl`) or a return (`inr` carrying
the result, the connection state left behind, and the unconsumed
stream). -/
def tcpStep (conn : TCPConnection) (stream : List Nat) :
    (TCPConnection × List Nat) ⊕
      (Except TCPError (PacketHeader × List Nat) × TCPConnection × List Nat) :=
  match conn.recvState with
  | .idle =>
    .inl ({ recvState := .readingHeader
            recvBuffer := List.replicate 24 0
            recvBytesRead := 0 }, stream)
  | .readingHeader =>
    if conn.recvBytesRead < 24 then
      match readExact stream (24 - conn.recvBytesRead) with
      | none => .inr (.error .readErr,
          { conn with
              recvState := .idle
              recvBuffer := spliceAt conn.recvBuffer conn.recvBytesRead stream }, [])
      | some (bs, rest) =>
        .inl (headerDone
          { conn with
              recvBuffer := spliceAt conn.recvBuffer conn.recvBytesRead bs
              recvBytesRead := 24 }, rest)
    else .inl (headerDone conn, stream)
  | .readingPayload =>
    if conn.recvBytesRead < 24 + read16 conn.recvBuffer 18 then
      match readExact stream (24 + read16 conn.recvBuffer 18 - conn.recvBytesRead) with
      | none => .inr (.error .readErr,
          { conn with
              recvState := .idle
              recvBuffer := spliceAt conn.recvBuffer conn.recvBytesRead stream }, [])
      | some (bs, rest) =>
        .inl ({ conn with
                recvState := .readingCRC
                recvBuffer := spliceAt conn.recvBuffer conn.recvBytesRead bs
                recvBytesRead := 24 + read16 conn.recvBuffer 18 }, rest)
    else .inl ({ conn with recvState := .readingCRC }, stream)
  | .readingCRC =>
    if conn.recvBytesRead < 24 + read16 conn.recvBuffer 18 + 4 then
      match readExact stream (24 + read16 conn.recvBuffer 18 + 4 - conn.recvBytesRead) with
      | none => .inr (.error .readErr,
          { conn with
              recvState := .idle
              recvBuffer := spliceAt conn.recvBuffer conn.recvBytesRead stream }, [])
      | some (bs, rest) =>
        .inl ({ conn with
                recvState := .ready
                recvBuffer := spliceAt conn.recvBuffer conn.recvBytesRead bs
                recvBytesRead := 24 + read16 conn.recvBuffer 18 + 4 }, rest)
    else .inl ({ conn with recvState := .ready }, stream)
  | .ready =>
    match Deserialize (conn.recvBuffer.take conn.recvBytesRead) with
    | .error e => .inr (.error (.codec e), { conn with recvState := .idle }, stream)
    | .ok (hdr, payload) => .inr (.ok (hdr, payload),
        { conn with recvState := .idle, recvBytesRead := 0 }, stream)

/-- The fueled `for` loop of `TCPRecv`. -/
def tcpRecvLoop : Nat → TCPConnection → List Nat →
    Except TCPError (PacketHeader × List Nat) × TCPConnection × List Nat
  | 0, conn, stream => (.error .outOfFuel, conn, stream)
  | fuel+1, conn, stream =>
    match tcpStep conn stream with
    | .inl (c, s) => tcpRecvLoop fuel c s
    | .inr r => r

/-- `TCPRecv`: the machine returns within five loop iterations from
any state, so fuel 6 covers every Go execution. -/
def TCPRecv (conn : TCPConnection) (stream : List Nat) :
    Except TCPError (PacketHeader × List Nat) × TCPConnection × List Nat :=
  tcpRecvLoop 6 conn stream

/-- A well-formed 4-byte-payload header for the TCP scenarios (wire
timestamp and in-memory CRC zero so that it round-trips exactly). -/
def c9Hdr : PacketHeader :=
  { magic := 0xABCD, version := 1, flags := 0, opcode := 1, proto := 1,
    streamID := 5, seq := 9, fragID := 0, totalFrags := 0,
    payloadLen := 4, timestamp := 0, crc32mem := 0 }

/-- Its 32-byte frame. -/
def c9Frame : List Nat :=
  match Serialize c9Hdr [1, 2, 3, 4] with
  | .ok bs => bs
  | .error _ => []

/-- The connection the claim says a payload-interrupted receive
leaves behind: mid-frame in `StateReadingPayload` with the 24 header
bytes buffered and counted. -/
def c9MidConn : TCPConnection :=
  { recvState := .readingPayload,
    recvBuffer := c9Frame.take 24 ++ List.replicate 8 0,
    recvBytesRead := 24 }

/-! ## Library Send dispatch (unnamed/part_000, package overproto)

`Send`'s compression and encryption steps call the `optimize`
package, which is outside the embedded sources; their outcomes are
environment parameters (`compressRes`: the result of
`optimize.Compress`, `none` = error; `encEnabled`:
`optimize.IsEncryptionEnabled()`; `encryptRes`: ciphertext and IV
from `optimize.Encrypt`).  The connection argument is abstracted to
its dynamic kind, and the dispatched socket write is returned as a
`SendAction` instead of being performed. -/

/-- `core.ProtoTCP`. -/
def ProtoTCP : Nat := 0x01

/-- `core.ProtoUDP`. -/
def ProtoUDP : Nat := 0x02

/-- `core.ProtoHTTP`. -/
def ProtoHTTP : Nat := 0x03

/-- `core.CompressThreshold`. -/
def CompressThreshold : Nat := 512

/-- The dynamic kind of `Send`'s `conn interface{}` argument. -/
inductive ConnVal
  | tcp
  | udp
  | other
deriving Repr, DecidableEq

/-- The socket write `Send` dispatches to: `TCPSend`'s `Write` or
`UDPSend`'s plain datagram write. -/
inductive SendAction
  | tcpWrite (bytes : List Nat)
  | udpWrite (bytes : List Nat)
deriving Repr, DecidableEq

/-- Error sites of `overproto.Send`, in source order. -/
inductive SendError
  | notInited
  | dataTooLarge
  | encryptNoKey
  | encryptFailed
  | payloadLenConv
  | timestampConv
  | invalidConnTCP
  | invalidConnUDP
  | unsupportedProtocol
  | codec (e : CodecError)
deriving Repr, DecidableEq

/-- `core.NewPacketHeader`: magic, version, timestamp-now (zero on
conversion failure), all other fields Go zero values.  `nowUnix` is
`time.Now().Unix()` (non-negative). -/
def NewPacketHeader (nowUnix : Nat) : PacketHeader :=
  { magic := MagicConst, version := VersionConst, flags := 0, opcode := 0, proto := 0,
    streamID := 0, seq := 0, fragID := 0, totalFrags := 0, payloadLen := 0,
    timestamp := if nowUnix ≤ 4294967295 then nowUnix else 0, crc32mem := 0 }

/-- `Send` step 1, automatic compression: only when the payload
reaches `CompressThreshold` and the caller did not set the flag, and
only on `Compress` success. -/
def compStage (data : List Nat) (flags : Nat) (compressRes : Option (List Nat)) :
    List Nat × Nat :=
  if data.length ≥ CompressThreshold ∧ flags &&& FlagCompressed = 0 then
    match compressRes with
    | some c => (c, flags ||| FlagCompressed)
    | none => (data, flags)
  else (data, flags)

/-- `Send` step 2, encryption: key required, payload becomes
`IV ‖ ciphertext`. -/
def encStage (pf : List Nat × Nat) (encEnabled : Bool)
    (encryptRes : Option (List Nat × List Nat)) : Except SendError (List Nat × Nat) :=
  if pf.2 &&& FlagEncrypted ≠ 0 then
    if encEnabled = false then .error .encryptNoKey
    else
      match encryptRes with
      | none => .error .encryptFailed
      | some (enc, iv) => .ok (iv ++ enc, pf.2)
  else .ok pf

/-- The header `Send` builds (step 3): `NewPacketHeader` with the
caller's fields, `PayloadLen` from the processed payload and
`Seq = 0` (the `TODO` in the source). -/
def sendHeader (streamID opcode proto flags2 payloadLen nowUnix : Nat) : PacketHeader :=
  { magic := MagicConst, version := VersionConst, flags := flags2, opcode := opcode,
    proto := proto, streamID := streamID, seq := 0, fragID := 0, totalFrags := 0,
    payloadLen := payloadLen, timestamp := nowUnix, crc32mem := 0 }

/-- `Send` step 4, the transport switch.  In the `ProtoUDP` case the
source checks `FlagReliable` but both branches perform the same plain
`transport.UDPSend` (the reliable branch is a `TODO`). -/
def sendDispatch (conn : ConnVal) (proto : Nat) (hdr : PacketHeader)
    (payload : List Nat) (flags2 : Nat) : Except SendError SendAction :=
  if proto = ProtoTCP then
    match conn with
    | .tcp =>
      match Serialize hdr payload with
      | .error e => .error (.codec e)
      | .ok bs => .ok (.tcpWrite bs)
    | _ => .error .invalidConnTCP
  else if proto = ProtoUDP then
    match conn with
    | .udp =>
      if flags2 &&& FlagReliable ≠ 0 then
        match Serialize hdr payload with
        | .error e => .error (.codec e)
        | .ok bs => .ok (.udpWrite bs)
      else
        match Serialize hdr payload with
        | .error e => .error (.codec e)
        | .ok bs => .ok (.udpWrite bs)
    | _ => .error .invalidConnUDP
  else .error .unsupportedProtocol

/-- `Send` steps 3–4 after payload processing: the `SafeIntToUint16`
and `SafeInt64ToUint32` guards, then the header and the dispatch. -/
def sendCore (conn : ConnVal) (streamID opcode proto : Nat) (payload : List Nat)
    (flags2 : Nat) (nowUnix : Nat) : Except SendError SendAction :=
  if payload.length > 65535 then .error .payloadLenConv
  else if nowUnix > 4294967295 then .error .timestampConv
  else sendDispatch conn proto
    (sendHeader streamID opcode proto flags2 payload.length nowUnix) payload flags2

/-- `overproto.Send`. -/
def Send (conn : ConnVal) (inited : Bool) (streamID opcode proto : Nat)
    (data : List Nat) (flags : Nat) (nowUnix : Nat)
    (compressRes : Option (List Nat)) (encEnabled : Bool)
    (encryptRes : Option (List Nat × List Nat)) : Except SendError SendAction :=
  if inited = false then .error .notInited
  else if data.length > 65535 then .error .dataTooLarge
  else
    match encStage (compStage data flags compressRes) encEnabled encryptRes with
    | .error e => .error e
    | .ok (payload, flags2) => sendCore conn streamID opcode proto payload flags2 nowUnix

/-! ## Bit-arithmetic kit -/

theorem testBit_eq_false_of_ge {y k j : Nat} (hy : y < 2^k) (hj : k ≤ j) :
    Nat.testBit y j = false :=
  Nat.testBit_eq_false_of_lt (lt_of_lt_of_le hy (Nat.pow_le_pow_right (by omega) hj))

/-- Bitwise-or of a multiple of `2^k` with a value below `2^k` is addition. -/
theorem lor_eq_add (k x y : Nat) (hx : x % 2^k = 0) (hy : y < 2^k) :
    x ||| y = x + y := by
  obtain ⟨m, hm⟩ := Nat.dvd_of_mod_eq_zero hx
  subst hm
  apply Nat.eq_of_testBit_eq
  intro j
  have hpos : 0 < 2^k := Nat.pos_pow_of_pos _ (by omega)
  have hx0 := Nat.testBit_mul_pow_two_add m (i := k) (b := 0) hpos j
  have hxy := Nat.testBit_mul_pow_two_add m (i := k) (b := y) hy j
  rw [Nat.add_zero] at hx0
  rw [Nat.mul_comm] at hx0 hxy
  rw [Nat.mul_comm (2^k) m, Nat.testBit_lor, hx0, hxy]
  by_cases hj : j < k
  · simp [hj]
  · have hyf : Nat.testBit y j = false := testBit_eq_false_of_ge hy (by omega)
    simp [hj, hyf]

/-- Bitwise-xor of a multiple of `2^k` with a value below `2^k` is addition. -/
theorem xor_eq_add (k x y : Nat) (hx : x % 2^k = 0) (hy : y < 2^k) :
    x ^^^ y = x + y := by
  obtain ⟨m, hm⟩ := Nat.dvd_of_mod_eq_zero hx
  subst hm
  apply Nat.eq_of_testBit_eq
  intro j
  have hpos : 0 < 2^k := Nat.pos_pow_of_pos _ (by omega)
  have hx0 := Nat.testBit_mul_pow_two_add m (i := k) (b := 0) hpos j
  have hxy := Nat.testBit_mul_pow_two_add m (i := k) (b := y) hy j
  rw [Nat.add_zero] at hx0
  rw [Nat.mul_comm] at hx0 hxy
  rw [Nat.mul_comm (2^k) m, Nat.testBit_xor, hx0, hxy]
  by_cases hj : j < k
  · simp [hj]
  · have hyf : Nat.testBit y j = false := testBit_eq_false_of_ge hy (by omega)
    simp [hj, hyf]

/-- Shift-right distributes over xor. -/
theorem xor_shiftRight (a b k : Nat) : (a ^^^ b) >>> k = (a >>> k) ^^^ (b >>> k) := by
  apply Nat.eq_of_testBit_eq
  intro j
  simp [Nat.testBit_shiftRight, Nat.testBit_xor]

theorem read16_of_bytes (v : Nat) (hv : v < 2^16) :
    ((v >>> 8) % 256) <<< 8 ||| (v % 256) = v := by
  rw [Nat.shiftLeft_eq, lor_eq_add 8 _ _ (by omega) (by omega)]
  rw [Nat.shiftRight_eq_div_pow] at *
  omega

theorem read32_of_bytes (v : Nat) (hv : v < 2^32) :
    ((v >>> 24) % 256) <<< 24 ||| ((v >>> 16) % 256) <<< 16 |||
      ((v >>> 8) % 256) <<< 8 ||| (v % 256) = v := by
  simp only [Nat.shiftLeft_eq, Nat.shiftRight_eq_div_pow]
  have h1 : (v / 2^24 % 256) * 2^24 ||| (v / 2^16 % 256) * 2^16
      = (v / 2^24 % 256) * 2^24 + (v / 2^16 % 256) * 2^16 :=
    lor_eq_add 24 _ _ (by omega) (by omega)
  rw [h1]
  have h2 : (v / 2^24 % 256) * 2^24 + (v / 2^16 % 256) * 2^16 ||| (v / 2^8 % 256) * 2^8
      = (v / 2^24 % 256) * 2^24 + (v / 2^16 % 256) * 2^16 + (v / 2^8 % 256) * 2^8 :=
    lor_eq_add 16 _ _ (by omega) (by omega)
  rw [h2]
  have h3 : (v / 2^24 % 256) * 2^24 + (v / 2^16 % 256) * 2^16 + (v / 2^8 % 256) * 2^8
        ||| v % 256
      = (v / 2^24 % 256) * 2^24 + (v / 2^16 % 256) * 2^16 + (v / 2^8 % 256) * 2^8
        + v % 256 :=
    lor_eq_add 8 _ _ (by omega) (by omega)
  rw [h3]
  omega

/-! ## The table-driven CRC equals the bit-level reflected CRC -/

theorem crc32BitStep_highlow (m l : Nat) :
    crc32BitStep ((m * 2) ^^^ l) = m ^^^ crc32BitStep l := by
  unfold crc32BitStep
  have hm2 : (m * 2) % 2 = 0 := by omega
  have hmod : ((m * 2) ^^^ l) % 2 = l % 2 := by
    rcases Nat.mod_two_eq_zero_or_one l with h | h
    · by_contra hne
      have h1 : ((m * 2) ^^^ l) % 2 = 1 := by omega
      rw [Nat.xor_mod_two_eq_one] at h1
      omega
    · have h1 : ((m * 2) ^^^ l) % 2 = 1 := by
        rw [Nat.xor_mod_two_eq_one]
        omega
      omega
  have hshift : ((m * 2) ^^^ l) >>> 1 = m ^^^ (l >>> 1) := by
    rw [xor_shiftRight]
    congr 1
    rw [Nat.shiftRight_eq_div_pow]
    omega
  simp only [Nat.and_one_is_mod, hmod, hshift]
  rcases Nat.mod_two_eq_zero_or_one l with h | h
  · simp [h]
  · simp [h, Nat.xor_assoc]

theorem crc32BitStep_iter_highlow (k : Nat) :
    ∀ m l, crc32BitStep^[k] ((m * 2^k) ^^^ l) = m ^^^ crc32BitStep^[k] l := by
  induction k with
  | zero => intro m l; simp
  | succ k ih =>
    intro m l
    have h1 : m * 2^(k+1) = (m * 2^k) * 2 := by ring
    rw [Function.iterate_succ_apply, Function.iterate_succ_apply, h1,
      crc32BitStep_highlow, ih]

/-- The table-driven byte update of the source equals the bit-level
reflected update, for genuine bytes. -/
theorem crc32UpdateByte_eq_bitwise (c b : Nat) (hb : b < 256) :
    crc32UpdateByte c b = crc32UpdateByteBitwise c b := by
  unfold crc32UpdateByte crc32UpdateByteBitwise crc32TableEntry
  have hmask : (c ^^^ b) &&& 0xFF = (c ^^^ b) % 2^8 := by
    have : (0xFF : Nat) = 2^8 - 1 := by norm_num
    rw [this, Nat.and_pow_two_sub_one_eq_mod]
  have hsplit : (((c ^^^ b) / 2^8) * 2^8) ^^^ ((c ^^^ b) % 2^8) = c ^^^ b := by
    have hq : ((c ^^^ b) / 2^8) * 2^8 % 2^8 = 0 := by omega
    rw [xor_eq_add 8 _ _ hq (by omega)]
    omega
  have hhi : (c ^^^ b) / 2^8 = c >>> 8 := by
    have h1 : (c ^^^ b) >>> 8 = (c >>> 8) ^^^ (b >>> 8) := xor_shiftRight c b 8
    have h2 : b >>> 8 = 0 := by
      rw [Nat.shiftRight_eq_div_pow]; omega
    rw [h2, Nat.xor_zero] at h1
    rw [← h1, Nat.shiftRight_eq_div_pow]
  calc (c >>> 8) ^^^ crc32BitStep^[8] ((c ^^^ b) &&& 0xFF)
      = (c >>> 8) ^^^ crc32BitStep^[8] ((c ^^^ b) % 2^8) := by rw [hmask]
    _ = crc32BitStep^[8] ((((c ^^^ b) / 2^8) * 2^8) ^^^ ((c ^^^ b) % 2^8)) := by
        rw [crc32BitStep_iter_highlow, hhi]
    _ = crc32BitStep^[8] (c ^^^ b) := by rw [hsplit]

/-! ## Bounds: the CRC register stays below `2^32` -/

theorem crc32BitStep_lt {c : Nat} (hc : c < 2^32) : crc32BitStep c < 2^32 := by
  unfold crc32BitStep
  have hdiv : c >>> 1 < 2^32 := by
    rw [Nat.shiftRight_eq_div_pow]; omega
  split
  · exact Nat.xor_lt_two_pow hdiv (by norm_num [crc32Poly])
  · exact hdiv

theorem crc32BitStep_iter_lt (n : Nat) : ∀ c, c < 2^32 → crc32BitStep^[n] c < 2^32 := by
  induction n with
  | zero => intro c hc; simpa using hc
  | succ n ih =>
    intro c hc
    rw [Function.iterate_succ_apply]
    exact ih _ (crc32BitStep_lt hc)

theorem crc32UpdateByte_lt {c : Nat} (b : Nat) (hc : c < 2^32) :
    crc32UpdateByte c b < 2^32 := by
  unfold crc32UpdateByte crc32TableEntry
  have h1 : (c ^^^ b) &&& 0xFF < 2^32 := by
    have : (0xFF : Nat) = 2^8 - 1 := by norm_num
    rw [this, Nat.and_pow_two_sub_one_eq_mod]
    have := Nat.mod_lt (c ^^^ b) (y := 2^8) (by norm_num)
    omega
  have h2 : c >>> 8 < 2^32 := by
    rw [Nat.shiftRight_eq_div_pow]; omega
  exact Nat.xor_lt_two_pow h2 (crc32BitStep_iter_lt 8 _ h1)

theorem crc32Update_lt (data : List Nat) : ∀ c, c < 2^32 → crc32Update c data < 2^32 := by
  induction data with
  | nil => intro c hc; simpa [crc32Update] using hc
  | cons x xs ih =>
    intro c hc
    simp only [crc32Update, List.foldl_cons]
    exact ih _ (crc32UpdateByte_lt x hc)

theorem computeCRC32_lt (data : List Nat) : ComputeCRC32 data < 2^32 :=
  Nat.xor_lt_two_pow (crc32Update_lt data _ (by norm_num)) (by norm_num)

/-! ## Reading multi-byte fields back out of appended buffers -/

theorem byteAt_append_right (l r : List Nat) (i : Nat) :
    byteAt (l ++ r) (l.length + i) = byteAt r i := by
  induction l with
  | nil => simp [byteAt]
  | cons x xs ih =>
    have hidx : (x :: xs).length + i = (xs.length + i) + 1 := by
      simp [List.length_cons]; omega
    simp only [byteAt, List.cons_append, hidx, List.getD_cons_succ]
    exact ih

theorem read32_append_be32 (l : List Nat) (v : Nat) (hv : v < 2^32) :
    read32 (l ++ be32 v) l.length = v := by
  unfold read32
  have h0 : byteAt (l ++ be32 v) l.length = (v >>> 24) % 256 := by
    have := byteAt_append_right l (be32 v) 0
    simpa [byteAt, be32] using this
  have h1 : byteAt (l ++ be32 v) (l.length + 1) = (v >>> 16) % 256 := by
    have := byteAt_append_right l (be32 v) 1
    simpa [byteAt, be32] using this
  have h2 : byteAt (l ++ be32 v) (l.length + 1 + 1) = (v >>> 8) % 256 := by
    have := byteAt_append_right l (be32 v) 2
    have hidx : l.length + 1 + 1 = l.length + 2 := by omega
    rw [hidx]
    simpa [byteAt, be32] using this
  have h3 : byteAt (l ++ be32 v) (l.length + 1 + 1 + 1) = v % 256 := by
    have := byteAt_append_right l (be32 v) 3
    have hidx : l.length + 1 + 1 + 1 = l.length + 3 := by omega
    rw [hidx]
    simpa [byteAt, be32] using this
  rw [h0, h1, h2, h3]
  exact read32_of_bytes v hv

theorem crc32_foldl_eq_bitwise (data : List Nat) :
    ∀ c, (∀ b ∈ data, b < 256) →
      data.foldl crc32UpdateByte c = data.foldl crc32UpdateByteBitwise c := by
  induction data with
  | nil => intro c _; rfl
  | cons x xs ih =>
    intro c hd
    simp only [List.foldl_cons]
    rw [crc32UpdateByte_eq_bitwise _ _ (hd x (by simp))]
    exact ih _ (fun b hb => hd b (by simp [hb]))

/-- The source CRC32 equals the bit-level reflected CRC32 on byte data:
polynomial 0xEDB88320, init 0xFFFFFFFF, post-XOR 0xFFFFFFFF. -/
theorem computeCRC32_eq_bitwise (data : List Nat) (hd : ∀ b ∈ data, b < 256) :
    ComputeCRC32 data = crc32Bitwise data := by
  unfold ComputeCRC32 crc32Bitwise crc32Update
  rw [crc32_foldl_eq_bitwise data _ hd]

/-! ## Codec structure lemmas -/

theorem headerBytes_length (h : PacketHeader) : (headerBytes h).length = 24 := rfl

theorem serialize_ok (h : PacketHeader) (p : List Nat) (hp : p.length ≤ 65535) :
    Serialize h p =
      .ok (headerBytes h ++ p ++ be32 (ComputeCRC32 (headerBytes h ++ p))) := by
  unfold Serialize
  rw [if_neg (by omega)]

/-- Reading the header back from a serialized buffer returns the
original fields, except that the timestamp word was transmitted as
zero library-wide and the in-memory CRC32 field is left at zero. -/
theorem readHeader_serialized (h : PacketHeader) (rest : List Nat) (hWF : h.WF) :
    readHeader (headerBytes h ++ rest) = { h with timestamp := 0, crc32mem := 0 } := by
  obtain ⟨w1, w2, w3, w4, w5, w6, w7, w8, w9, w10, w11, w12⟩ := hWF
  unfold readHeader
  have e0 : read16 (headerBytes h ++ rest) 0 = h.magic := by
    have : read16 (headerBytes h ++ rest) 0
        = ((h.magic >>> 8) % 256) <<< 8 ||| h.magic % 256 := rfl
    rw [this]; exact read16_of_bytes _ w1
  have e2 : byteAt (headerBytes h ++ rest) 2 = h.version := by
    have : byteAt (headerBytes h ++ rest) 2 = h.version % 256 := rfl
    rw [this]; omega
  have e3 : byteAt (headerBytes h ++ rest) 3 = h.flags := by
    have : byteAt (headerBytes h ++ rest) 3 = h.flags % 256 := rfl
    rw [this]; omega
  have e4 : byteAt (headerBytes h ++ rest) 4 = h.opcode := by
    have : byteAt (headerBytes h ++ rest) 4 = h.opcode % 256 := rfl
    rw [this]; omega
  have e5 : byteAt (headerBytes h ++ rest) 5 = h.proto := by
    have : byteAt (headerBytes h ++ rest) 5 = h.proto % 256 := rfl
    rw [this]; omega
  have e6 : read32 (headerBytes h ++ rest) 6 = h.streamID := by
    have : read32 (headerBytes h ++ rest) 6
        = ((h.streamID >>> 24) % 256) <<< 24 ||| ((h.streamID >>> 16) % 256) <<< 16 |||
          ((h.streamID >>> 8) % 256) <<< 8 ||| h.streamID % 256 := rfl
    rw [this]; exact read32_of_bytes _ w6
  have e10 : read32 (headerBytes h ++ rest) 10 = h.seq := by
    have : read32 (headerBytes h ++ rest) 10
        = ((h.seq >>> 24) % 256) <<< 24 ||| ((h.seq >>> 16) % 256) <<< 16 |||
          ((h.seq >>> 8) % 256) <<< 8 ||| h.seq % 256 := rfl
    rw [this]; exact read32_of_bytes _ w7
  have e14 : read16 (headerBytes h ++ rest) 14 = h.fragID := by
    have : read16 (headerBytes h ++ rest) 14
        = ((h.fragID >>> 8) % 256) <<< 8 ||| h.fragID % 256 := rfl
    rw [this]; exact read16_of_bytes _ w8
  have e16 : read16 (headerBytes h ++ rest) 16 = h.totalFrags := by
    have : read16 (headerBytes h ++ rest) 16
        = ((h.totalFrags >>> 8) % 256) <<< 8 ||| h.totalFrags % 256 := rfl
    rw [this]; exact read16_of_bytes _ w9
  have e18 : read16 (headerBytes h ++ rest) 18 = h.payloadLen := by
    have : read16 (headerBytes h ++ rest) 18
        = ((h.payloadLen >>> 8) % 256) <<< 8 ||| h.payloadLen % 256 := rfl
    rw [this]; exact read16_of_bytes _ w10
  have e20 : read32 (headerBytes h ++ rest) 20 = 0 := by
    have : read32 (headerBytes h ++ rest) 20
        = (0:Nat) <<< 24 ||| (0:Nat) <<< 16 ||| (0:Nat) <<< 8 ||| 0 := rfl
    rw [this]; decide
  rw [e0, e2, e3, e4, e5, e6, e10, e14, e16, e18, e20]

/-- The general round trip: a serialized well-formed valid header with
a consistent payload length deserializes back to the original header
and payload, except that the timestamp and in-memory CRC32 fields come
back zero. -/
theorem deserialize_serialized (h : PacketHeader) (p : List Nat) (hWF : h.WF)
    (hm : h.magic = MagicConst) (hv : h.version = VersionConst)
    (hlen : h.payloadLen = p.length) (hp : p.length ≤ 65535) :
    Deserialize (headerBytes h ++ p ++ be32 (ComputeCRC32 (headerBytes h ++ p)))
      = .ok ({ h with timestamp := 0, crc32mem := 0 }, p) := by
  rw [List.append_assoc]
  have hdlen :
      (headerBytes h ++ (p ++ be32 (ComputeCRC32 (headerBytes h ++ p)))).length
        = 28 + p.length := by
    simp [headerBytes_length, be32]
    omega
  unfold Deserialize
  rw [if_neg (by rw [hdlen]; simp only [HeaderSize]; omega)]
  rw [readHeader_serialized h _ hWF]
  have hval : ValidateHeader { h with timestamp := 0, crc32mem := 0 } = .ok () := by
    unfold ValidateHeader
    simp [hm, hv]
  simp only [hval]
  rw [hdlen]
  rw [if_neg (by simp only [HeaderSize]; omega)]
  have hdrop :
      (headerBytes h ++ (p ++ be32 (ComputeCRC32 (headerBytes h ++ p)))).drop HeaderSize
        = p ++ be32 (ComputeCRC32 (headerBytes h ++ p)) :=
    List.drop_left' (headerBytes_length h)
  have htakep :
      (p ++ be32 (ComputeCRC32 (headerBytes h ++ p))).take h.payloadLen = p :=
    List.take_left' hlen.symm
  rw [hdrop, htakep]
  have htake24 :
      (headerBytes h ++ (p ++ be32 (ComputeCRC32 (headerBytes h ++ p)))).take HeaderSize
        = headerBytes h :=
    List.take_left' (headerBytes_length h)
  have hcrcread :
      read32 (headerBytes h ++ (p ++ be32 (ComputeCRC32 (headerBytes h ++ p))))
        (28 + p.length - 4)
      = ComputeCRC32 (headerBytes h ++ p) := by
    rw [← List.append_assoc]
    have hlen2 : 28 + p.length - 4 = (headerBytes h ++ p).length := by
      simp [headerBytes_length]
      omega
    rw [hlen2]
    exact read32_append_be32 _ _ (computeCRC32_lt _)
  rw [hcrcread, htake24]
  rw [if_neg (by simp)]

theorem headerBytes_bytes_lt (h : PacketHeader) : ∀ b ∈ headerBytes h, b < 256 := by
  intro b hb
  simp only [headerBytes, be16, be32] at hb
  fin_cases hb <;> omega

theorem except_bind_ok {ε α β : Type} (a : α) (f : α → Except ε β) :
    (Except.ok (ε := ε) a).bind f = f a := rfl

/-! ## Claim theorems: codec -/

/-- C1 counterexample.  Two concrete inputs on which the claim "for a
valid-magic/version header with arbitrary other field values,
Deserialize ∘ Serialize is the identity" fails: a header whose
in-memory Timestamp is 1 comes back with Timestamp 0 (the serializer
transmits the word as zero), and a header whose `payload_len` field
(0) disagrees with the actual payload length (1) makes Deserialize
fail with a CRC mismatch. -/
theorem C1_counterexample :
    (Serialize
        { magic := 0xABCD, version := 1, flags := 0, opcode := 0, proto := 0,
          streamID := 0, seq := 0, fragID := 0, totalFrags := 0,
          payloadLen := 0, timestamp := 1, crc32mem := 0 } []).bind Deserialize
      ≠ .ok ({ magic := 0xABCD, version := 1, flags := 0, opcode := 0, proto := 0,
               streamID := 0, seq := 0, fragID := 0, totalFrags := 0,
               payloadLen := 0, timestamp := 1, crc32mem := 0 }, []) ∧
    (Serialize
        { magic := 0xABCD, version := 1, flags := 0, opcode := 0, proto := 0,
          streamID := 0, seq := 0, fragID := 0, totalFrags := 0,
          payloadLen := 0, timestamp := 0, crc32mem := 0 } [97]).bind Deserialize
      = .error .crcMismatch := by
  constructor
  · have hc : (Serialize
        { magic := 0xABCD, version := 1, flags := 0, opcode := 0, proto := 0,
          streamID := 0, seq := 0, fragID := 0, totalFrags := 0,
          payloadLen := 0, timestamp := 1, crc32mem := 0 } []).bind Deserialize
      = .ok ({ magic := 0xABCD, version := 1, flags := 0, opcode := 0, proto := 0,
               streamID := 0, seq := 0, fragID := 0, totalFrags := 0,
               payloadLen := 0, timestamp := 0, crc32mem := 0 }, []) := rfl
    rw [hc]
    intro hcontra
    simp only [Except.ok.injEq, Prod.mk.injEq, PacketHeader.mk.injEq] at hcontra
    omega
  · rfl

/-- C1 (amended): for a well-formed header with magic 0xABCD, version
0x01 and `payload_len` equal to the actual payload length (≤ 65535),
Deserialize ∘ Serialize returns the original payload and the original
header except that the Timestamp and the in-memory CRC32 field come
back as zero. -/
theorem C1_theorem (h : PacketHeader) (p : List Nat) (hWF : h.WF)
    (hm : h.magic = 0xABCD) (hv : h.version = 0x01)
    (hlen : h.payloadLen = p.length) (hp : p.length ≤ 65535) :
    (Serialize h p).bind Deserialize
      = .ok ({ h with timestamp := 0, crc32mem := 0 }, p) := by
  rw [serialize_ok h p hp, except_bind_ok]
  exact deserialize_serialized h p hWF hm hv hlen hp

theorem C1_witness :
    (({ magic := 0xABCD, version := 1, flags := 0, opcode := 1, proto := 1,
        streamID := 0x12345678, seq := 0x87654321, fragID := 0x1111,
        totalFrags := 0x2222, payloadLen := 4, timestamp := 99,
        crc32mem := 0 } : PacketHeader).WF ∧
      ([116, 101, 115, 116] : List Nat).length ≤ 65535) ∧
    (Serialize
        { magic := 0xABCD, version := 1, flags := 0, opcode := 1, proto := 1,
          streamID := 0x12345678, seq := 0x87654321, fragID := 0x1111,
          totalFrags := 0x2222, payloadLen := 4, timestamp := 99,
          crc32mem := 0 } [116, 101, 115, 116]).bind Deserialize
      = .ok ({ magic := 0xABCD, version := 1, flags := 0, opcode := 1, proto := 1,
               streamID := 0x12345678, seq := 0x87654321, fragID := 0x1111,
               totalFrags := 0x2222, payloadLen := 4, timestamp := 0,
               crc32mem := 0 }, [116, 101, 115, 116]) :=
  ⟨⟨by decide, by decide⟩,
    C1_theorem _ _ (by decide) rfl rfl (by decide) (by decide)⟩

/-- C2: `Deserialize` fails in exactly the claimed cases, checked in
the claimed order — Truncated (len < 28), BadMagic, BadVersion,
LengthOverflow (24 + payload_len + 4 > len), CrcMismatch (final four
bytes vs CRC over received header bytes ++ payload) — and succeeds
otherwise. -/
theorem C2_theorem (data : List Nat) :
    errOf (Deserialize data) = deserializeClaimedError data := by
  unfold Deserialize deserializeClaimedError
  have hmagic : (readHeader data).magic = read16 data 0 := rfl
  have hver : (readHeader data).version = byteAt data 2 := rfl
  have hplen : (readHeader data).payloadLen = read16 data 18 := rfl
  unfold ValidateHeader
  simp only [hmagic, hver, hplen, HeaderSize, MagicConst, VersionConst]
  split_ifs <;> first | rfl | omega

/-- C5: the serialized buffer carries 0x00000000 at offsets 20..23
regardless of the in-memory Timestamp, and its trailer is the
big-endian CRC32 — polynomial 0xEDB88320, init 0xFFFFFFFF, post-XOR
0xFFFFFFFF, reflected (the bit-level `crc32Bitwise` form) — of the 24
header bytes exactly as written followed by the payload. -/
theorem C5_theorem (h : PacketHeader) (p : List Nat) (hp : p.length ≤ 65535)
    (hpb : ∀ b ∈ p, b < 256) :
    ∃ out, Serialize h p = .ok out ∧
      (out.drop 20).take 4 = [0, 0, 0, 0] ∧
      out.drop (24 + p.length) = be32 (crc32Bitwise (out.take 24 ++ p)) := by
  refine ⟨_, serialize_ok h p hp, rfl, ?_⟩
  have htake24 :
      ((headerBytes h ++ p ++ be32 (ComputeCRC32 (headerBytes h ++ p))).take 24)
        = headerBytes h := by
    rw [List.append_assoc]
    exact List.take_left' (headerBytes_length h)
  have hdroptail :
      ((headerBytes h ++ p ++ be32 (ComputeCRC32 (headerBytes h ++ p))).drop
          (24 + p.length))
        = be32 (ComputeCRC32 (headerBytes h ++ p)) :=
    List.drop_left' (by simp [headerBytes_length])
  rw [htake24, hdroptail]
  have hbytes : ∀ b ∈ headerBytes h ++ p, b < 256 := by
    intro b hb
    rcases List.mem_append.mp hb with hmem | hmem
    · exact headerBytes_bytes_lt h b hmem
    · exact hpb b hmem
  rw [computeCRC32_eq_bitwise _ hbytes]

theorem C5_witness :
    (([1, 2, 3] : List Nat).length ≤ 65535 ∧ ∀ b ∈ ([1, 2, 3] : List Nat), b < 256) ∧
    ∃ out, Serialize
        { magic := 0xABCD, version := 1, flags := 0, opcode := 1, proto := 2,
          streamID := 7, seq := 9, fragID := 0, totalFrags := 0,
          payloadLen := 3, timestamp := 123456, crc32mem := 0 } [1, 2, 3] = .ok out ∧
      (out.drop 20).take 4 = [0, 0, 0, 0] ∧
      out.drop (24 + ([1, 2, 3] : List Nat).length)
        = be32 (crc32Bitwise (out.take 24 ++ [1, 2, 3])) :=
  ⟨⟨by decide, by decide⟩, C5_theorem _ _ (by decide) (by decide)⟩

/-! ## Fragmenter lemmas -/

theorem take_min (xs : List α) (a : Nat) : xs.take (min a xs.length) = xs.take a := by
  rcases Nat.le_total a xs.length with h | h
  · rw [Nat.min_eq_left h]
  · rw [Nat.min_eq_right h, List.take_length, List.take_of_length_le h]

/-- Concatenating the `m`-sized chunks of `l` in index order recovers
a prefix of `l`. -/
theorem chunks_concat (l : List Nat) (m : Nat) :
    ∀ k, (List.range k).flatMap (fun i => (l.drop (i*m)).take m) = l.take (k*m) := by
  intro k
  induction k with
  | zero => simp
  | succ k ih =>
    rw [List.range_succ, List.flatMap_append, ih, List.flatMap_singleton,
      Nat.succ_mul, List.take_add]

theorem fragSize_eq (payload : List Nat) (m i : Nat) (hm2 : m ≤ 65535)
    (hlen : payload.length < 2^63) (hi : i * m < payload.length) :
    fragSize payload m i = min m (payload.length - i * m) := by
  unfold fragSize fragOffset usub64
  split <;> omega

theorem fragOffset_eq (payload : List Nat) (m i : Nat)
    (hlen : payload.length < 2^63) (hi : i * m < payload.length) :
    fragOffset m i = i * m := by
  unfold fragOffset
  omega

theorem fragmentsFrom_eq (hdr : PacketHeader) (payload : List Nat) (N m : Nat)
    (hm2 : m ≤ 65535) (hN : N < 2^16) (hlen : payload.length < 2^63) :
    ∀ L : List Nat, (∀ i ∈ L, i * m < payload.length) →
      fragmentsFrom hdr payload N m L = .ok (L.map (fun i => fragSpec hdr payload m N i)) := by
  intro L
  induction L with
  | nil => intro _; rfl
  | cons j rest ih =>
    intro hL
    have hj : j * m < payload.length := hL j (by simp)
    have hsz : fragSize payload m j = min m (payload.length - j * m) :=
      fragSize_eq payload m j hm2 hlen hj
    have hslice : fragSlice payload m j
        = (payload.drop (j * m)).take (min m (payload.length - j * m)) := by
      unfold fragSlice
      rw [hsz, fragOffset_eq payload m j hlen hj]
    have hhd : fragHeaderOf hdr N payload m j
        = { hdr with flags := hdr.flags ||| FlagFragment, fragID := j,
                     totalFrags := N, payloadLen := min m (payload.length - j * m) } := by
      unfold fragHeaderOf
      rw [hsz]
      have h1 : N % 2^16 = N := by omega
      have h2 : min m (payload.length - j * m) % 2^16
          = min m (payload.length - j * m) := by omega
      rw [h1, h2]
    have hslen : ((payload.drop (j * m)).take (min m (payload.length - j * m))).length
        ≤ 65535 := by
      simp only [List.length_take, List.length_drop]
      omega
    unfold fragmentsFrom
    rw [hslice, hhd, serialize_ok _ _ hslen, ih (fun i hi => hL i (by simp [hi]))]
    rfl

set_option maxRecDepth 8000 in
/-- `FragmentPacket` in its normal regime (`28 < mtu ≤ 65563`): either
"too many fragments" or exactly the `fragSpec` fragments. -/
theorem fragmentPacket_eq (hdr : PacketHeader) (payload : List Nat) (mtu : Nat)
    (h1 : 28 < mtu) (h2 : mtu ≤ 65563) (hlen : payload.length < 2^63)
    (hbig : payload.length > mtu - 28) :
    FragmentPacket hdr payload mtu =
      if (payload.length + (mtu - 28) - 1) / (mtu - 28) > 256 then
        .error .tooManyFragments
      else
        .ok (some ((List.range ((payload.length + (mtu - 28) - 1) / (mtu - 28))).map
          (fun i => fragSpec hdr payload (mtu - 28)
            ((payload.length + (mtu - 28) - 1) / (mtu - 28)) i))) := by
  have hmf : usub64 (usub64 mtu HeaderSize) 4 = mtu - 28 := by
    unfold usub64 HeaderSize
    omega
  have hm1 : 1 ≤ mtu - 28 := by omega
  have hm2 : mtu - 28 ≤ 65535 := by omega
  set m := mtu - 28 with hm
  have htot : fragTotal payload m = (payload.length + m - 1) / m := by
    have hnum : usub64 ((payload.length + m) % 2^64) 1 = payload.length + m - 1 := by
      unfold usub64
      omega
    unfold fragTotal
    rw [hnum]
  set N := (payload.length + m - 1) / m with hNdef
  unfold FragmentPacket
  rw [hmf, if_neg (by omega), if_neg (by omega), htot]
  by_cases hNbig : N > 256
  · rw [if_pos (by simpa [FragMaxFragments] using hNbig), if_pos hNbig]
  · rw [if_neg (by simpa [FragMaxFragments] using hNbig), if_neg hNbig]
    have hNle : N ≤ 256 := by omega
    have hNm_le : N * m ≤ payload.length + m - 1 := Nat.div_mul_le_self _ m
    have hN1 : 1 ≤ N := by
      rw [hNdef]
      rw [Nat.one_le_div_iff (by omega)]
      omega
    have hidx : ∀ i ∈ List.range N, i * m < payload.length := by
      intro i hi
      rw [List.mem_range] at hi
      have h3 : i * m ≤ (N - 1) * m := Nat.mul_le_mul_right m (by omega)
      have h4 : (N - 1) * m = N * m - m := by
        rw [Nat.sub_mul, Nat.one_mul]
      omega
    rw [fragmentsFrom_eq hdr payload N m hm2 (by omega) hlen _ hidx]

/-! ## Claim theorems: fragmenter guard (C10) and split (C6) -/

theorem fragmentsFrom_ne_mtuTooSmall (hdr : PacketHeader) (payload : List Nat)
    (N m : Nat) : ∀ L, fragmentsFrom hdr payload N m L ≠ .error .mtuTooSmall := by
  intro L
  induction L with
  | nil => intro h; cases h
  | cons j rest ih =>
    intro h
    unfold fragmentsFrom at h
    rcases hs : Serialize (fragHeaderOf hdr N payload m j) (fragSlice payload m j)
      with e | bytes
    · rw [hs] at h
      cases h
    · rw [hs] at h
      rcases hrec : fragmentsFrom hdr payload N m rest with e2 | tail
      · rw [hrec] at h
        cases h
        exact ih hrec
      · rw [hrec] at h
        cases h

/-- C10: the MTU-too-small guard is defeated by unsigned wraparound.
For every `mtu < 28` the Go `uint` computation `mtu - 24 - 4` wraps to
the huge value `2^64 - 28 + mtu`, the guard (which only fires on 0) is
not taken, and `FragmentPacket` reports "no fragmentation needed" for
every payload; the guard fires exactly at `mtu = 28` (and never for
`mtu > 28`). -/
theorem C10_theorem :
    (∀ mtu, mtu < 28 →
      usub64 (usub64 mtu HeaderSize) 4 = 2^64 - 28 + mtu ∧
      ∀ (hdr : PacketHeader) (payload : List Nat), payload.length < 2^63 →
        FragmentPacket hdr payload mtu = .ok none) ∧
    (∀ (hdr : PacketHeader) (payload : List Nat),
      FragmentPacket hdr payload 28 = .error .mtuTooSmall) ∧
    (∀ mtu (hdr : PacketHeader) (payload : List Nat), 28 < mtu → mtu < 2^64 →
      FragmentPacket hdr payload mtu ≠ .error .mtuTooSmall) := by
  refine ⟨?_, ?_, ?_⟩
  · intro mtu hmtu
    have hwrap : usub64 (usub64 mtu HeaderSize) 4 = 2^64 - 28 + mtu := by
      unfold usub64 HeaderSize
      omega
    refine ⟨hwrap, ?_⟩
    intro hdr payload hlen
    unfold FragmentPacket
    rw [hwrap, if_neg (by omega), if_pos (by omega)]
  · intro hdr payload
    have h28 : usub64 (usub64 28 HeaderSize) 4 = 0 := by decide
    unfold FragmentPacket
    rw [h28, if_pos rfl]
  · intro mtu hdr payload h1 h2 heq
    have hmf : usub64 (usub64 mtu HeaderSize) 4 = mtu - 28 := by
      unfold usub64 HeaderSize
      omega
    unfold FragmentPacket at heq
    rw [hmf, if_neg (by omega)] at heq
    by_cases hsmall : payload.length ≤ mtu - 28
    · rw [if_pos hsmall] at heq
      cases heq
    · rw [if_neg hsmall] at heq
      by_cases hbig : fragTotal payload (mtu - 28) > FragMaxFragments
      · rw [if_pos hbig] at heq
        cases heq
      · rw [if_neg hbig] at heq
        rcases hfr : fragmentsFrom hdr payload (fragTotal payload (mtu - 28)) (mtu - 28)
            (List.range (fragTotal payload (mtu - 28))) with e | frags
        · rw [hfr] at heq
          cases heq
          exact fragmentsFrom_ne_mtuTooSmall hdr payload _ _ _ hfr
        · rw [hfr] at heq
          cases heq

set_option maxRecDepth 8000 in
theorem C10_witness :
    (27 < 28 ∧ (List.replicate 65535 7 : List Nat).length < 2^63) ∧
    usub64 (usub64 27 HeaderSize) 4 = 2^64 - 28 + 27 ∧
    FragmentPacket
      { magic := 0xABCD, version := 1, flags := 0, opcode := 1, proto := 2,
        streamID := 0, seq := 0, fragID := 0, totalFrags := 0,
        payloadLen := 0, timestamp := 0, crc32mem := 0 }
      [1, 2, 3] 27 = .ok none := by
  have h := C10_theorem
  have h27 := h.1 27 (by omega)
  exact ⟨⟨by omega, by norm_num⟩, h27.1, h27.2 _ _ (by norm_num)⟩

/-- The C6 failure for any 65973-byte payload at MTU 66000 (kept
generic in the payload so no proof step forces the evaluation of a
65973-element list literal). -/
theorem c6main (payload : List Nat) (hlen : payload.length = 65973) :
    FragmentPacket
      { magic := 0xABCD, version := 1, flags := 0, opcode := 1, proto := 2,
        streamID := 0, seq := 0, fragID := 0, totalFrags := 0,
        payloadLen := 0, timestamp := 0, crc32mem := 0 }
      payload 66000 = .error (.codec .payloadTooLarge) := by
  have hmf : usub64 (usub64 66000 HeaderSize) 4 = 65972 := by
    unfold usub64 HeaderSize
    norm_num
  have htot : fragTotal payload 65972 = 2 := by
    unfold fragTotal usub64
    rw [hlen]
    norm_num
  have hsz0 : fragSize payload 65972 0 = 65972 := by
    unfold fragSize fragOffset
    rw [hlen]
    norm_num
  have hser : Serialize
      (fragHeaderOf
        { magic := 0xABCD, version := 1, flags := 0, opcode := 1, proto := 2,
          streamID := 0, seq := 0, fragID := 0, totalFrags := 0,
          payloadLen := 0, timestamp := 0, crc32mem := 0 }
        2 payload 65972 0)
      (fragSlice payload 65972 0) = .error .payloadTooLarge := by
    unfold Serialize
    rw [if_pos]
    unfold fragSlice fragOffset
    rw [hsz0]
    simp only [List.length_take, List.length_drop, hlen]
    norm_num
  unfold FragmentPacket
  rw [hmf, if_neg (by norm_num),
    if_neg (by rw [hlen]; norm_num), htot, if_neg (by norm_num [FragMaxFragments])]
  rw [show List.range 2 = [0, 1] from rfl]
  unfold fragmentsFrom
  rw [hser]

/-- C6 counterexample.  At MTU 66000 the per-fragment budget is
`max_frag = 65972 > 65535`; a payload of 65973 bytes needs N = 2 ≤ 256
fragments per the claim's formula, but `FragmentPacket` fails with
`Serialize`'s "payload too large" instead of producing them, because a
fragment slice no longer fits `Serialize`'s 65535-byte bound. -/
theorem C6_counterexample :
    (65973 + (66000 - 28) - 1) / (66000 - 28) = 2 ∧
    FragmentPacket
      { magic := 0xABCD, version := 1, flags := 0, opcode := 1, proto := 2,
        streamID := 0, seq := 0, fragID := 0, totalFrags := 0,
        payloadLen := 0, timestamp := 0, crc32mem := 0 }
      (List.replicate 65973 88) 66000 = .error (.codec .payloadTooLarge) :=
  ⟨by norm_num, c6main (List.replicate 65973 88) (List.length_replicate 65973 88)⟩

/-- C6 (amended): for `28 < MTU ≤ 65563` (so that every fragment slice
fits `Serialize`'s 65535-byte bound) `FragmentPacket` computes
`max_frag = MTU − 28`, returns "no fragmentation needed" when the
payload fits, fails with TooManyFragments when `N = ceil(len/max_frag)
> 256`, and otherwise produces exactly the `fragSpec` fragments:
fragment i carries `flags | FRAG`, `frag_id = i`, `total_frags = N`,
`payload_len` the size of its slice (the i-th max_frag-sized slice,
the last the remainder), each serialized independently with its own
CRC.  For MTU > 65563 see the counterexample. -/
theorem C6_theorem (hdr : PacketHeader) (payload : List Nat) (mtu : Nat)
    (h1 : 28 < mtu) (h2 : mtu ≤ 65563) (hlen : payload.length < 2^63) :
    (payload.length ≤ mtu - 28 → FragmentPacket hdr payload mtu = .ok none) ∧
    (payload.length > mtu - 28 →
      ((payload.length + (mtu - 28) - 1) / (mtu - 28) > 256 →
        FragmentPacket hdr payload mtu = .error .tooManyFragments) ∧
      ((payload.length + (mtu - 28) - 1) / (mtu - 28) ≤ 256 →
        FragmentPacket hdr payload mtu =
          .ok (some ((List.range ((payload.length + (mtu - 28) - 1) / (mtu - 28))).map
            (fun i => fragSpec hdr payload (mtu - 28)
              ((payload.length + (mtu - 28) - 1) / (mtu - 28)) i))))) := by
  have hmf : usub64 (usub64 mtu HeaderSize) 4 = mtu - 28 := by
    unfold usub64 HeaderSize
    omega
  refine ⟨?_, ?_⟩
  · intro hsm
    unfold FragmentPacket
    rw [hmf, if_neg (by omega), if_pos hsm]
  · intro hbig
    constructor
    · intro hN
      rw [fragmentPacket_eq hdr payload mtu h1 h2 hlen hbig, if_pos hN]
    · intro hN
      rw [fragmentPacket_eq hdr payload mtu h1 h2 hlen hbig, if_neg (by omega)]

theorem C6_witness :
    (28 < 100 ∧ (100:Nat) ≤ 65563 ∧ (List.replicate 300 88 : List Nat).length < 2^63 ∧
      (List.replicate 300 88 : List Nat).length > 100 - 28 ∧
      ((List.replicate 300 88 : List Nat).length + (100 - 28) - 1) / (100 - 28) = 5 ∧
      (List.range 5).map (fun i => min 72 (300 - i * 72)) = [72, 72, 72, 72, 12]) ∧
    ((List.replicate 300 88 : List Nat).length ≤ 100 - 28 →
      FragmentPacket
        { magic := 0xABCD, version := 1, flags := 0, opcode := 1, proto := 2,
          streamID := 0, seq := 0, fragID := 0, totalFrags := 0,
          payloadLen := 0, timestamp := 0, crc32mem := 0 }
        (List.replicate 300 88) 100 = .ok none) ∧
    ((List.replicate 300 88 : List Nat).length > 100 - 28 →
      (((List.replicate 300 88 : List Nat).length + (100 - 28) - 1) / (100 - 28) > 256 →
        FragmentPacket
          { magic := 0xABCD, version := 1, flags := 0, opcode := 1, proto := 2,
            streamID := 0, seq := 0, fragID := 0, totalFrags := 0,
            payloadLen := 0, timestamp := 0, crc32mem := 0 }
          (List.replicate 300 88) 100 = .error .tooManyFragments) ∧
      (((List.replicate 300 88 : List Nat).length + (100 - 28) - 1) / (100 - 28) ≤ 256 →
        FragmentPacket
          { magic := 0xABCD, version := 1, flags := 0, opcode := 1, proto := 2,
            streamID := 0, seq := 0, fragID := 0, totalFrags := 0,
            payloadLen := 0, timestamp := 0, crc32mem := 0 }
          (List.replicate 300 88) 100 =
          .ok (some ((List.range
              (((List.replicate 300 88 : List Nat).length + (100 - 28) - 1) / (100 - 28))).map
            (fun i => fragSpec
              { magic := 0xABCD, version := 1, flags := 0, opcode := 1, proto := 2,
                streamID := 0, seq := 0, fragID := 0, totalFrags := 0,
                payloadLen := 0, timestamp := 0, crc32mem := 0 }
              (List.replicate 300 88) (100 - 28)
              (((List.replicate 300 88 : List Nat).length + (100 - 28) - 1) / (100 - 28)) i))))) :=
  ⟨⟨by omega, by omega, by norm_num [List.length_replicate],
    by norm_num [List.length_replicate], by norm_num [List.length_replicate], by decide⟩,
    C6_theorem _ _ 100 (by omega) (by omega) (by norm_num [List.length_replicate])⟩

/-! ## Reassembly invariant (C7) -/

theorem getD_set_lt {α : Type} (l : List α) (i j : Nat) (a d : α) (hi : i < l.length) :
    (l.set i a).getD j d = if i = j then a else l.getD j d := by
  rcases eq_or_ne i j with rfl | hne
  · rw [if_pos rfl]
    simp [List.getD_eq_getElem?_getD, List.getElem?_set_self hi]
  · rw [if_neg hne]
    simp [List.getD_eq_getElem?_getD, List.getElem?_set_ne hne]

theorem countP_mem_insert (fed : List Nat) (j : Nat) (hnew : j ∉ fed) :
    ∀ l : List Nat, l.Nodup → j ∈ l →
      l.countP (fun i => decide (i ∈ fed ++ [j]))
        = l.countP (fun i => decide (i ∈ fed)) + 1 := by
  intro l
  induction l with
  | nil => intro _ h; cases h
  | cons x xs ih =>
    intro hnd hmem
    rcases List.nodup_cons.mp hnd with ⟨hxnot, hndxs⟩
    rcases eq_or_ne x j with rfl | hne
    · rw [List.countP_cons_of_pos _ _ (by simp [List.mem_append])]
      rw [List.countP_cons_of_neg _ _ (by simpa using hnew)]
      have htail : xs.countP (fun i => decide (i ∈ fed ++ [x]))
          = xs.countP (fun i => decide (i ∈ fed)) := by
        apply List.countP_congr
        intro a ha
        have hax : a ≠ x := fun h => hxnot (h ▸ ha)
        simp [List.mem_append, hax]
      omega
    · have hmem' : j ∈ xs := by
        rcases List.mem_cons.mp hmem with h | h
        · exact absurd h.symm hne
        · exact h
      by_cases hx : x ∈ fed
      · rw [List.countP_cons_of_pos _ _ (by simp [List.mem_append, hx])]
        rw [List.countP_cons_of_pos _ _ (by simp [hx])]
        rw [ih hndxs hmem']
      · rw [List.countP_cons_of_neg _ _ (by simp [List.mem_append, hx, hne])]
        rw [List.countP_cons_of_neg _ _ (by simp [hx])]
        exact ih hndxs hmem'

theorem addFragment_step (N : Nat) (hN : N ≤ 256) (slices : Nat → List Nat)
    (hdrs : Nat → PacketHeader) (fed : List Nat) (ctx : FragmentContext)
    (hinv : FragInv N slices (hdrs 0) fed ctx) (j : Nat) (hj : j < N) :
    ∃ ctx' done, AddFragment ctx j (hdrs j) (slices j) = .ok (ctx', done) ∧
      FragInv N slices (hdrs 0) (fed ++ [j]) ctx' ∧
      (done = true ↔ (j ∉ fed ∧ ∀ i, i < N → i ∈ fed ++ [j])) := by
  obtain ⟨hT, hL, hR, hF, hH⟩ := hinv
  have hj256 : j < 256 := lt_of_lt_of_le hj hN
  by_cases hjf : j ∈ fed
  · -- duplicate: silently ignored
    have hslot : ctx.fragments.getD j none = some (slices j) := by
      rw [hF j hj256, if_pos ⟨hjf, hj⟩]
    refine ⟨ctx, false, ?_, ?_, ?_⟩
    · unfold AddFragment
      rw [hT, if_neg (by omega), hslot]
      rfl
    · have hiff : ∀ i, (i ∈ fed ++ [j]) ↔ i ∈ fed := by
        intro i
        constructor
        · intro h
          rcases List.mem_append.mp h with h | h
          · exact h
          · rw [List.mem_singleton] at h
            exact h ▸ hjf
        · intro h
          exact List.mem_append.mpr (Or.inl h)
      refine ⟨hT, hL, ?_, ?_, ?_⟩
      · rw [hR]
        apply List.countP_congr
        intro a _
        simp [hiff a]
      · intro i hi
        rw [hF i hi]
        exact (if_congr (and_congr_left' (hiff i)).symm rfl rfl)
      · rw [hH]
        exact (if_congr (hiff 0).symm rfl rfl)
    · simp [hjf]
  · -- fresh fragment
    have hslot : ctx.fragments.getD j none = none := by
      rw [hF j hj256, if_neg (by tauto)]
    have hcount := countP_mem_insert fed j hjf (List.range N)
      (List.nodup_range N) (List.mem_range.mpr hj)
    refine ⟨addFragmentCtx ctx j (hdrs j) (slices j),
      decide ((addFragmentCtx ctx j (hdrs j) (slices j)).receivedFrags = ctx.totalFrags),
      ?_, ?_, ?_⟩
    · unfold AddFragment
      rw [hT, if_neg (by omega), hslot]
      rfl
    · refine ⟨hT, by simp [addFragmentCtx, hL], ?_, ?_, ?_⟩
      · show ctx.receivedFrags + 1 = _
        rw [hR, hcount]
      · intro i hi
        show (ctx.fragments.set j (some (slices j))).getD i none = _
        rw [getD_set_lt _ _ _ _ _ (by omega)]
        rcases eq_or_ne j i with rfl | hne
        · rw [if_pos rfl, if_pos ⟨List.mem_append.mpr (Or.inr (by simp)), hj⟩]
        · rw [if_neg hne, hF i hi]
          have hiff : (i ∈ fed ++ [j]) ↔ i ∈ fed := by
            constructor
            · intro h
              rcases List.mem_append.mp h with h | h
              · exact h
              · rw [List.mem_singleton] at h
                exact absurd h.symm hne
            · intro h
              exact List.mem_append.mpr (Or.inl h)
          exact (if_congr (and_congr_left' hiff).symm rfl rfl)
      · show (if j = 0 then some (hdrs j) else ctx.header) = _
        rcases eq_or_ne j 0 with rfl | hne
        · rw [if_pos rfl, if_pos (List.mem_append.mpr (Or.inr (by simp)))]
        · rw [if_neg hne, hH]
          have hiff : (0 ∈ fed ++ [j]) ↔ 0 ∈ fed := by
            constructor
            · intro h
              rcases List.mem_append.mp h with h | h
              · exact h
              · rw [List.mem_singleton] at h
                exact absurd h.symm hne
            · intro h
              exact List.mem_append.mpr (Or.inl h)
          exact (if_congr hiff.symm rfl rfl)
    · have hrf : (addFragmentCtx ctx j (hdrs j) (slices j)).receivedFrags
          = ctx.receivedFrags + 1 := rfl
      rw [decide_eq_true_iff, hrf, hT, hR]
      constructor
      · intro hc
        refine ⟨hjf, ?_⟩
        intro i hi
        have hfull : (List.range N).countP (fun i => decide (i ∈ fed ++ [j]))
            = (List.range N).length := by
          rw [List.length_range, hcount]
          omega
        have := List.countP_eq_length.mp hfull i (List.mem_range.mpr hi)
        simpa using this
      · intro ⟨_, hall⟩
        have hfull : (List.range N).countP (fun i => decide (i ∈ fed ++ [j]))
            = (List.range N).length := by
          apply List.countP_eq_length.mpr
          intro a ha
          simpa using hall a (List.mem_range.mp ha)
        rw [List.length_range, hcount] at hfull
        omega

theorem fragInv_fresh (N : Nat) (slices : Nat → List Nat) (hdr0 : PacketHeader)
    (sid sq now : Nat) : FragInv N slices hdr0 [] (NewFragmentContext sid sq N now) := by
  refine ⟨rfl, ?_, ?_, ?_, ?_⟩
  · show (List.replicate 256 (none : Option (List Nat))).length = 256
    rw [List.length_replicate]
  · show (0:Nat) = _
    symm
    simp [List.countP_eq_zero]
  · intro i hi
    show (List.replicate 256 (none : Option (List Nat))).getD i none = _
    rw [if_neg (by simp)]
    rw [List.getD_eq_getElem?_getD, List.getElem?_replicate]
    split <;> rfl
  · show (none : Option PacketHeader) = _
    rw [if_neg (by simp)]

theorem feedAll_inv (N : Nat) (hN : N ≤ 256) (slices : Nat → List Nat)
    (hdrs : Nat → PacketHeader) :
    ∀ (fed : List Nat) (fed0 : List Nat) (ctx : FragmentContext),
      FragInv N slices (hdrs 0) fed0 ctx → (∀ i ∈ fed, i < N) →
      ∃ ctx', feedAll ctx (fed.map (fun i => (i, hdrs i, slices i))) = .ok ctx' ∧
        FragInv N slices (hdrs 0) (fed0 ++ fed) ctx' := by
  intro fed
  induction fed with
  | nil =>
    intro fed0 ctx hinv _
    exact ⟨ctx, rfl, by simpa using hinv⟩
  | cons j rest ih =>
    intro fed0 ctx hinv hval
    obtain ⟨ctx1, done, hadd, hinv1, _⟩ :=
      addFragment_step N hN slices hdrs fed0 ctx hinv j (hval j (by simp))
    obtain ⟨ctx', hfeed, hinv'⟩ :=
      ih (fed0 ++ [j]) ctx1 hinv1 (fun i hi => hval i (by simp [hi]))
    refine ⟨ctx', ?_, ?_⟩
    · show feedAll ctx ((j, hdrs j, slices j) :: rest.map (fun i => (i, hdrs i, slices i)))
        = .ok ctx'
      unfold feedAll
      rw [hadd]
      exact hfeed
    · have : fed0 ++ j :: rest = (fed0 ++ [j]) ++ rest := by simp
      rw [this]
      exact hinv'

theorem assemble_of_inv (N : Nat) (hN : N ≤ 256) (hN1 : 0 < N)
    (slices : Nat → List Nat) (hdrs : Nat → PacketHeader)
    (fed : List Nat) (ctx : FragmentContext)
    (hinv : FragInv N slices (hdrs 0) fed ctx)
    (hcover : ∀ i, i < N → i ∈ fed) :
    Assemble ctx = .ok ({ hdrs 0 with
        flags := Nat.ldiff (hdrs 0).flags FlagFragment, fragID := 0, totalFrags := 0,
        payloadLen := ((List.range N).flatMap slices).length % 2^16 },
      (List.range N).flatMap slices) := by
  obtain ⟨hT, hL, hR, hF, hH⟩ := hinv
  have hfull : ctx.receivedFrags = N := by
    rw [hR]
    have h1 : (List.range N).countP (fun i => decide (i ∈ fed))
        = (List.range N).length :=
      List.countP_eq_length.mpr
        (fun a ha => by simpa using hcover a (List.mem_range.mp ha))
    rw [h1, List.length_range]
  have hpay : assemblePayload ctx = (List.range N).flatMap slices := by
    unfold assemblePayload
    rw [hT, List.flatMap_def, List.flatMap_def]
    refine congrArg List.flatten (List.map_congr_left ?_)
    intro i hi
    have hiN := List.mem_range.mp hi
    rw [hF i (by omega), if_pos ⟨hcover i hiN, hiN⟩]
    rfl
  have hany : ¬((List.range ctx.totalFrags).any
      (fun i => (ctx.fragments.getD i none).isNone) = true) := by
    rw [hT]
    intro hcon
    rw [List.any_eq_true] at hcon
    obtain ⟨i, hi, hnone⟩ := hcon
    have hiN := List.mem_range.mp hi
    rw [hF i (by omega), if_pos ⟨hcover i hiN, hiN⟩] at hnone
    simp at hnone
  unfold Assemble
  rw [if_neg (by rw [hT, hfull]; omega), if_neg hany, hH,
    if_pos (hcover 0 hN1), hpay]

/-- The slices in index order concatenate back to the payload, as long
as the chunks cover it. -/
theorem fragSlices_concat (payload : List Nat) (m N : Nat)
    (hge : payload.length ≤ N * m) :
    (List.range N).flatMap (fun i => fragSpecSlice payload m i) = payload := by
  have hstep : ∀ i, fragSpecSlice payload m i = (payload.drop (i*m)).take m := by
    intro i
    unfold fragSpecSlice
    have h1 : min m (payload.length - i * m)
        = min m ((payload.drop (i*m)).length) := by
      simp [List.length_drop]
    rw [h1, take_min]
  calc (List.range N).flatMap (fun i => fragSpecSlice payload m i)
      = (List.range N).flatMap (fun i => (payload.drop (i*m)).take m) := by
        rw [List.flatMap_def, List.flatMap_def]
        exact congrArg List.flatten (List.map_congr_left (fun i _ => hstep i))
    _ = payload.take (N * m) := chunks_concat payload m N
    _ = payload := List.take_of_length_le hge

/-- C7 (amended): in the normal regime, `FragmentPacket` splits the
payload into the N `fragSpec` fragments; feeding their
`(frag_id, header, slice)` triples to a fresh context in any order
with arbitrary duplicates never errors, `AddFragment` reports
completion exactly when the last distinct fragment arrives, and once
every index has been fed `Assemble` returns the payload `P` and a
header with the FRAG flag cleared, `frag_id = 0`, `total_frags = 0`
and — correcting the claim — `payload_len = len(P) mod 2^16` (the
uint16 cast), not `len(P)` itself. -/
theorem C7_theorem (hdr : PacketHeader) (payload : List Nat) (mtu sid sq now m N : Nat)
    (hm : m = mtu - 28) (hN : N = (payload.length + m - 1) / m)
    (h1 : 28 < mtu) (h2 : mtu ≤ 65563) (hlen : payload.length < 2^63)
    (hbig : payload.length > m) (hNle : N ≤ 256) :
    FragmentPacket hdr payload mtu =
      .ok (some ((List.range N).map (fun i => fragSpec hdr payload m N i))) ∧
    (∀ (fed : List Nat) (j : Nat), (∀ i ∈ fed, i < N) → j < N →
      ∃ ctxq, feedAll (NewFragmentContext sid sq N now)
          (fed.map (fun i =>
            (i, fragSpecHeader hdr payload m N i, fragSpecSlice payload m i)))
          = .ok ctxq ∧
        ∃ ctx' done, AddFragment ctxq j (fragSpecHeader hdr payload m N j)
            (fragSpecSlice payload m j) = .ok (ctx', done) ∧
          (done = true ↔ (j ∉ fed ∧ ∀ i, i < N → i ∈ fed ++ [j]))) ∧
    (∀ (order : List Nat), (∀ i ∈ order, i < N) → (∀ i, i < N → i ∈ order) →
      ∃ ctxf, feedAll (NewFragmentContext sid sq N now)
          (order.map (fun i =>
            (i, fragSpecHeader hdr payload m N i, fragSpecSlice payload m i)))
          = .ok ctxf ∧
        Assemble ctxf = .ok ({ fragSpecHeader hdr payload m N 0 with
            flags := Nat.ldiff (fragSpecHeader hdr payload m N 0).flags FlagFragment,
            fragID := 0, totalFrags := 0, payloadLen := payload.length % 2^16 },
          payload)) := by
  have hmpos : 0 < m := by omega
  have hN1 : 1 ≤ N := by
    rw [hN, Nat.one_le_div_iff hmpos]
    omega
  have hge : payload.length ≤ N * m := by
    have e := Nat.div_add_mod (payload.length + m - 1) m
    rw [← hN] at e
    have hr : (payload.length + m - 1) % m < m := Nat.mod_lt _ hmpos
    rw [Nat.mul_comm N m]
    omega
  have hconcat : (List.range N).flatMap (fun i => fragSpecSlice payload m i) = payload :=
    fragSlices_concat payload m N hge
  refine ⟨?_, ?_, ?_⟩
  · have hfp := fragmentPacket_eq hdr payload mtu h1 h2 hlen (by omega)
    rw [← hm, ← hN] at hfp
    rw [hfp, if_neg (by omega)]
  · intro fed j hfed hj
    obtain ⟨ctxq, hfeedq, hinvq⟩ :=
      feedAll_inv N hNle (fun i => fragSpecSlice payload m i)
        (fun i => fragSpecHeader hdr payload m N i) fed []
        (NewFragmentContext sid sq N now)
        (fragInv_fresh N _ _ sid sq now) hfed
    rw [List.nil_append] at hinvq
    obtain ⟨ctx', done, hadd, _, hdone⟩ :=
      addFragment_step N hNle (fun i => fragSpecSlice payload m i)
        (fun i => fragSpecHeader hdr payload m N i) fed ctxq hinvq j hj
    exact ⟨ctxq, hfeedq, ctx', done, hadd, hdone⟩
  · intro order hval hcover
    obtain ⟨ctxf, hfeedf, hinvf⟩ :=
      feedAll_inv N hNle (fun i => fragSpecSlice payload m i)
        (fun i => fragSpecHeader hdr payload m N i) order []
        (NewFragmentContext sid sq N now)
        (fragInv_fresh N _ _ sid sq now) hval
    rw [List.nil_append] at hinvf
    have hasm := assemble_of_inv N hNle (by omega)
      (fun i => fragSpecSlice payload m i)
      (fun i => fragSpecHeader hdr payload m N i) order ctxf hinvf hcover
    rw [hconcat] at hasm
    exact ⟨ctxf, hfeedf, hasm⟩

/-- C7 counterexample.  A 65536-byte payload at the default MTU 1400
splits into 48 fragments; reassembling all of them succeeds and
returns the payload intact, but the reconstructed header's
`payload_len` is the uint16 cast `65536 mod 2^16 = 0`, not
`len(P) = 65536` as claimed. -/
theorem C7_counterexample :
    FragmentPacket
      { magic := 0xABCD, version := 1, flags := 0, opcode := 1, proto := 2,
        streamID := 0, seq := 0, fragID := 0, totalFrags := 0,
        payloadLen := 0, timestamp := 0, crc32mem := 0 }
      (List.replicate 65536 88) 1400
      = .ok (some ((List.range 48).map (fun i => fragSpec
          { magic := 0xABCD, version := 1, flags := 0, opcode := 1, proto := 2,
            streamID := 0, seq := 0, fragID := 0, totalFrags := 0,
            payloadLen := 0, timestamp := 0, crc32mem := 0 }
          (List.replicate 65536 88) 1372 48 i))) ∧
    ∃ ctxf, feedAll (NewFragmentContext 0 0 48 0)
        ((List.range 48).map (fun i =>
          (i, fragSpecHeader
            { magic := 0xABCD, version := 1, flags := 0, opcode := 1, proto := 2,
              streamID := 0, seq := 0, fragID := 0, totalFrags := 0,
              payloadLen := 0, timestamp := 0, crc32mem := 0 }
            (List.replicate 65536 88) 1372 48 i,
          fragSpecSlice (List.replicate 65536 88) 1372 i)))
        = .ok ctxf ∧
      ∃ hp, Assemble ctxf = .ok hp ∧
        hp.1.payloadLen = 0 ∧ hp.2.length = 65536 ∧ hp.1.payloadLen ≠ hp.2.length := by
  have hlenP : (List.replicate 65536 88 : List Nat).length = 65536 :=
    List.length_replicate 65536 88
  have hN48 : ((List.replicate 65536 88 : List Nat).length + 1372 - 1) / 1372 = 48 := by
    rw [hlenP]
  have hconcat : (List.range 48).flatMap
      (fun i => fragSpecSlice (List.replicate 65536 88) 1372 i)
      = List.replicate 65536 88 :=
    fragSlices_concat _ 1372 48 (by rw [hlenP]; norm_num)
  constructor
  · have hfp := fragmentPacket_eq
      { magic := 0xABCD, version := 1, flags := 0, opcode := 1, proto := 2,
        streamID := 0, seq := 0, fragID := 0, totalFrags := 0,
        payloadLen := 0, timestamp := 0, crc32mem := 0 }
      (List.replicate 65536 88) 1400 (by norm_num) (by norm_num)
      (by rw [hlenP]; norm_num) (by rw [hlenP]; norm_num)
    have h1372 : (1400:Nat) - 28 = 1372 := by norm_num
    rw [h1372, hN48] at hfp
    rw [hfp, if_neg (by norm_num)]
  · obtain ⟨ctxf, hfeedf, hinvf⟩ :=
      feedAll_inv 48 (by norm_num)
        (fun i => fragSpecSlice (List.replicate 65536 88) 1372 i)
        (fun i => fragSpecHeader
          { magic := 0xABCD, version := 1, flags := 0, opcode := 1, proto := 2,
            streamID := 0, seq := 0, fragID := 0, totalFrags := 0,
            payloadLen := 0, timestamp := 0, crc32mem := 0 }
          (List.replicate 65536 88) 1372 48 i)
        (List.range 48) [] (NewFragmentContext 0 0 48 0)
        (fragInv_fresh 48 _ _ 0 0 0)
        (fun i hi => List.mem_range.mp hi)
    rw [List.nil_append] at hinvf
    have hasm := assemble_of_inv 48 (by norm_num) (by norm_num)
      (fun i => fragSpecSlice (List.replicate 65536 88) 1372 i)
      (fun i => fragSpecHeader
        { magic := 0xABCD, version := 1, flags := 0, opcode := 1, proto := 2,
          streamID := 0, seq := 0, fragID := 0, totalFrags := 0,
          payloadLen := 0, timestamp := 0, crc32mem := 0 }
        (List.replicate 65536 88) 1372 48 i)
      (List.range 48) ctxf hinvf (fun i hi => List.mem_range.mpr hi)
    rw [hconcat, hlenP] at hasm
    refine ⟨ctxf, hfeedf, _, hasm, ?_, ?_, ?_⟩
    · show (65536:Nat) % 2^16 = 0
      norm_num
    · show (List.replicate 65536 88 : List Nat).length = 65536
      exact hlenP
    · show (65536:Nat) % 2^16 ≠ (List.replicate 65536 88 : List Nat).length
      rw [hlenP]
      norm_num

theorem C7_witness :
    ((24:Nat) = 52 - 28 ∧
      (5:Nat) = ((List.replicate 100 88 : List Nat).length + 24 - 1) / 24 ∧
      28 < 52 ∧ (List.replicate 100 88 : List Nat).length > 24 ∧ (5:Nat) ≤ 256) ∧
    (FragmentPacket
        { magic := 0xABCD, version := 1, flags := 0, opcode := 1, proto := 2,
          streamID := 3, seq := 4, fragID := 0, totalFrags := 0,
          payloadLen := 0, timestamp := 0, crc32mem := 0 }
        (List.replicate 100 88) 52 =
      .ok (some ((List.range 5).map (fun i => fragSpec
          { magic := 0xABCD, version := 1, flags := 0, opcode := 1, proto := 2,
            streamID := 3, seq := 4, fragID := 0, totalFrags := 0,
            payloadLen := 0, timestamp := 0, crc32mem := 0 }
          (List.replicate 100 88) 24 5 i))) ∧
      (∀ (fed : List Nat) (j : Nat), (∀ i ∈ fed, i < 5) → j < 5 →
        ∃ ctxq, feedAll (NewFragmentContext 3 4 5 0)
            (fed.map (fun i =>
              (i, fragSpecHeader
                { magic := 0xABCD, version := 1, flags := 0, opcode := 1, proto := 2,
                  streamID := 3, seq := 4, fragID := 0, totalFrags := 0,
                  payloadLen := 0, timestamp := 0, crc32mem := 0 }
                (List.replicate 100 88) 24 5 i,
              fragSpecSlice (List.replicate 100 88) 24 i)))
            = .ok ctxq ∧
          ∃ ctx' done, AddFragment ctxq j
              (fragSpecHeader
                { magic := 0xABCD, version := 1, flags := 0, opcode := 1, proto := 2,
                  streamID := 3, seq := 4, fragID := 0, totalFrags := 0,
                  payloadLen := 0, timestamp := 0, crc32mem := 0 }
                (List.replicate 100 88) 24 5 j)
              (fragSpecSlice (List.replicate 100 88) 24 j) = .ok (ctx', done) ∧
            (done = true ↔ (j ∉ fed ∧ ∀ i, i < 5 → i ∈ fed ++ [j]))) ∧
      (∀ (order : List Nat), (∀ i ∈ order, i < 5) → (∀ i, i < 5 → i ∈ order) →
        ∃ ctxf, feedAll (NewFragmentContext 3 4 5 0)
            (order.map (fun i =>
              (i, fragSpecHeader
                { magic := 0xABCD, version := 1, flags := 0, opcode := 1, proto := 2,
                  streamID := 3, seq := 4, fragID := 0, totalFrags := 0,
                  payloadLen := 0, timestamp := 0, crc32mem := 0 }
                (List.replicate 100 88) 24 5 i,
              fragSpecSlice (List.replicate 100 88) 24 i)))
            = .ok ctxf ∧
          Assemble ctxf = .ok ({ fragSpecHeader
              { magic := 0xABCD, version := 1, flags := 0, opcode := 1, proto := 2,
                streamID := 3, seq := 4, fragID := 0, totalFrags := 0,
                payloadLen := 0, timestamp := 0, crc32mem := 0 }
              (List.replicate 100 88) 24 5 0 with
              flags := Nat.ldiff (fragSpecHeader
                { magic := 0xABCD, version := 1, flags := 0, opcode := 1, proto := 2,
                  streamID := 3, seq := 4, fragID := 0, totalFrags := 0,
                  payloadLen := 0, timestamp := 0, crc32mem := 0 }
                (List.replicate 100 88) 24 5 0).flags FlagFragment,
              fragID := 0, totalFrags := 0,
              payloadLen := (List.replicate 100 88 : List Nat).length % 2^16 },
            List.replicate 100 88))) :=
  ⟨⟨by norm_num, by norm_num [List.length_replicate], by norm_num,
    by norm_num [List.length_replicate], by norm_num⟩,
    C7_theorem _ _ 52 3 4 0 24 5 (by norm_num) (by norm_num [List.length_replicate])
      (by norm_num) (by norm_num) (by norm_num [List.length_replicate])
      (by norm_num [List.length_replicate]) (by norm_num)⟩

/-! ## Reliable-transport helper lemmas -/

theorem getD_set_cases {α : Type} (l : List α) (i j : Nat) (a d : α) :
    (l.set j a).getD i d = a ∨ (l.set j a).getD i d = l.getD i d := by
  induction l generalizing i j with
  | nil => right; rfl
  | cons x xs ih =>
    cases j with
    | zero =>
      cases i with
      | zero => left; rfl
      | succ i => right; rfl
    | succ j =>
      cases i with
      | zero => right; rfl
      | succ i => exact ih i j

theorem updateCwnd_sendWindow (c : ReliableContext) :
    (updateCongestionWindow c).sendWindow = c.sendWindow := by
  unfold updateCongestionWindow
  split <;> rfl

theorem updateRTT_sendWindow (c : ReliableContext) (r : Nat) :
    (updateRTT c r).sendWindow = c.sendWindow := by
  unfold updateRTT
  split <;> rfl

theorem rttApplied_sendWindow (c : ReliableContext) (a r : Nat) :
    (rttApplied c a r).sendWindow = c.sendWindow := by
  unfold rttApplied
  split
  · rw [updateRTT_sendWindow]
    rfl
  · rfl

/-- The advance loop only clears slots, so a slot that is ACKed or
Empty stays ACKed or Empty. -/
theorem advanceBase_slot (fuel : Nat) :
    ∀ (c : ReliableContext) (i : Nat),
      ((c.sendWindow.getD i emptySlot).state = PacketState.acked ∨
        (c.sendWindow.getD i emptySlot).state = PacketState.empty) →
      (((advanceBase fuel c).sendWindow.getD i emptySlot).state = PacketState.acked ∨
        ((advanceBase fuel c).sendWindow.getD i emptySlot).state = PacketState.empty) := by
  induction fuel with
  | zero => intro c i h; exact h
  | succ fuel ih =>
    intro c i h
    unfold advanceBase
    split
    · split
      · apply ih
        show ((c.sendWindow.set (getWindowIndex c.sendBase) emptySlot).getD i
            emptySlot).state = PacketState.acked ∨
          ((c.sendWindow.set (getWindowIndex c.sendBase) emptySlot).getD i
            emptySlot).state = PacketState.empty
        rcases getD_set_cases c.sendWindow i (getWindowIndex c.sendBase)
            emptySlot emptySlot with hc | hc
        · rw [hc]
          right
          rfl
        · rw [hc]
          exact h
      · exact h
    · exact h

set_option maxRecDepth 1000000 in
/-- C4: the claim says Send fails with WindowFull exactly when
`min(32 - (next_seq - send_base), cwnd)` is zero, and that with
`cwnd` grown to 32 all 32 sends succeed and the 33rd fails.  In the
code `availableSlots` is replaced by `cwnd` whenever it exceeds
`cwnd`, and the guard compares the in-flight count against THAT, so
from the reachable empty-window state with `cwnd = 32` only the first
16 sends succeed: the 17th fails although the claimed formula gives
`min(32 - 16, 32) = 16 ≠ 0`. -/
theorem C4_theorem :
    c4Iter 14 NewReliableContext = .ok c4Ctx32 ∧
    c4Ctx32.cwnd = 32 ∧ c4Ctx32.nextSeq = 28 ∧ c4Ctx32.sendBase = 28 ∧
    (∀ k, k < 17 → isOkE (sendN k c4Ctx32) = true) ∧
    sendN 17 c4Ctx32 = .error .sendWindowFull ∧
    sendN 16 c4Ctx32 = .ok c4Ctx16 ∧
    min (usub32 c4Ctx16.windowSize (usub32 c4Ctx16.nextSeq c4Ctx16.sendBase))
        c4Ctx16.cwnd = 16 ∧
    c4Ctx16.Send rcHdr [] 0 = .error .sendWindowFull := by
  decide

set_option maxRecDepth 1000000 in
/-- C8 counterexample: with one packet in flight on a fresh context
(`lastACKSeq` is zero-initialized), the very first ACK for sequence 0
takes the duplicate-ACK path, so replaying it keeps incrementing
`dupACKCount` — the second call changes the state, and the third
replay even fires a fast retransmission. -/
theorem C8_counterexample :
    (NewReliableContext.Send rcHdr [] 0).map Prod.fst = .ok c8Ctx1 ∧
    c8Ctx1.lastACKSeq = 0 ∧
    (c8Ctx1.ackSlot 0).state = PacketState.sent ∧
    c8Ctx1.isInSendWindow 0 = true ∧
    (c8Ctx1.ProcessACK 0 0).1.dupACKCount = 1 ∧
    ((c8Ctx1.ProcessACK 0 0).1.ProcessACK 0 0).1.dupACKCount = 2 ∧
    ((c8Ctx1.ProcessACK 0 0).1.ProcessACK 0 0).1 ≠ (c8Ctx1.ProcessACK 0 0).1 ∧
    (((c8Ctx1.ProcessACK 0 0).1.ProcessACK 0 0).1.ProcessACK 0 0).2 ≠ [] := by
  decide

/-- C8 (amended): ProcessACK is idempotent — the second identical
call returns the unchanged state and writes nothing — except when the
ACK hits the duplicate-ACK branch (in the send window, slot Sent or
Retransmit, and `ackSeq = lastACKSeq`), where replays keep counting
duplicates and can trigger a fast retransmission. -/
theorem C8_theorem (ctx : ReliableContext) (a r r2 : Nat)
    (hw : ctx.sendWindow.length = 32)
    (hnd : ¬ (ctx.isInSendWindow a = true ∧
      ((ctx.ackSlot a).state = PacketState.sent ∨
        (ctx.ackSlot a).state = PacketState.retransmit) ∧ a = ctx.lastACKSeq)) :
    (ctx.ProcessACK a r).1.ProcessACK a r2 = ((ctx.ProcessACK a r).1, []) := by
  by_cases hw0 : ctx.isInSendWindow a = true
  · by_cases hs : (ctx.ackSlot a).state = PacketState.empty ∨
        (ctx.ackSlot a).state = PacketState.acked
    · have h1 : ctx.ProcessACK a r = (ctx, []) := by
        unfold ReliableContext.ProcessACK
        rw [if_pos hw0, if_pos hs]
      rw [h1]
      show ctx.ProcessACK a r2 = (ctx, [])
      unfold ReliableContext.ProcessACK
      rw [if_pos hw0, if_pos hs]
    · have hsr : (ctx.ackSlot a).state = PacketState.sent ∨
          (ctx.ackSlot a).state = PacketState.retransmit := by
        cases hst : (ctx.ackSlot a).state with
        | empty => exact absurd (Or.inl hst) hs
        | sent => exact Or.inl rfl
        | acked => exact absurd (Or.inr hst) hs
        | retransmit => exact Or.inr rfl
      have hne : ¬ a = ctx.lastACKSeq := fun hEq => hnd ⟨hw0, hsr, hEq⟩
      have h1 : ctx.ProcessACK a r
          = (advanceBase 33 (updateCongestionWindow (ackedCtx ctx a r)), []) := by
        unfold ReliableContext.ProcessACK
        rw [if_pos hw0, if_neg hs, if_neg hne]
      rw [h1]
      show (advanceBase 33 (updateCongestionWindow (ackedCtx ctx a r))).ProcessACK a r2
        = (advanceBase 33 (updateCongestionWindow (ackedCtx ctx a r)), [])
      have hidx : getWindowIndex a < (rttApplied ctx a r).sendWindow.length := by
        rw [rttApplied_sendWindow, hw]
        exact Nat.mod_lt _ (by norm_num)
      have hacked : ((updateCongestionWindow (ackedCtx ctx a r)).sendWindow.getD
          (getWindowIndex a) emptySlot).state = PacketState.acked := by
        rw [updateCwnd_sendWindow]
        show (((rttApplied ctx a r).sendWindow.set (getWindowIndex a)
            { ctx.ackSlot a with state := PacketState.acked }).getD
            (getWindowIndex a) emptySlot).state = PacketState.acked
        rw [getD_set_lt _ _ _ _ _ hidx, if_pos rfl]
      have hsl := advanceBase_slot 33 (updateCongestionWindow (ackedCtx ctx a r))
        (getWindowIndex a) (Or.inl hacked)
      by_cases hw2 : (advanceBase 33
          (updateCongestionWindow (ackedCtx ctx a r))).isInSendWindow a = true
      · have hs2 : ((advanceBase 33
              (updateCongestionWindow (ackedCtx ctx a r))).ackSlot a).state
              = PacketState.empty ∨
            ((advanceBase 33
              (updateCongestionWindow (ackedCtx ctx a r))).ackSlot a).state
              = PacketState.acked := by
          rcases hsl with h | h
          · exact Or.inr h
          · exact Or.inl h
        unfold ReliableContext.ProcessACK
        rw [if_pos hw2, if_pos hs2]
      · unfold ReliableContext.ProcessACK
        rw [if_neg hw2]
  · have h1 : ctx.ProcessACK a r = (ctx, []) := by
      unfold ReliableContext.ProcessACK
      rw [if_neg hw0]
    rw [h1]
    show ctx.ProcessACK a r2 = (ctx, [])
    unfold ReliableContext.ProcessACK
    rw [if_neg hw0]

theorem C8_witness :
    NewReliableContext.sendWindow.length = 32 ∧
    ¬ (NewReliableContext.isInSendWindow 5 = true ∧
      ((NewReliableContext.ackSlot 5).state = PacketState.sent ∨
        (NewReliableContext.ackSlot 5).state = PacketState.retransmit) ∧
      5 = NewReliableContext.lastACKSeq) ∧
    (NewReliableContext.ProcessACK 5 0).1.ProcessACK 5 0
      = ((NewReliableContext.ProcessACK 5 0).1, []) :=
  ⟨by decide, by decide, C8_theorem NewReliableContext 5 0 0 (by decide) (by decide)⟩

/-- C3: with the library initialized, a UDP connection, `proto =
ProtoUDP` and `FlagReliable` set (payload below the compression
threshold, no encryption), `Send` does NOT go through the reliable
ARQ layer: it emits a single plain UDP datagram — the same
`transport.UDPSend` call as the unreliable path — whose header
carries the hard-coded `Seq = 0` (the source's `TODO`s), so no
`ReliableContext` window slot or sequence number is involved. -/
theorem C3_theorem (streamID opcode nowUnix : Nat) (data : List Nat)
    (hsmall : data.length < 512) (hnow : nowUnix ≤ 4294967295) :
    ∃ bs, Serialize (sendHeader streamID opcode ProtoUDP 8 data.length nowUnix) data
        = .ok bs ∧
      Send ConnVal.udp true streamID opcode ProtoUDP data 8 nowUnix none false none
        = .ok (SendAction.udpWrite bs) ∧
      (sendHeader streamID opcode ProtoUDP 8 data.length nowUnix).seq = 0 := by
  have hdl : data.length ≤ 65535 := by omega
  have hser := serialize_ok (sendHeader streamID opcode ProtoUDP 8 data.length nowUnix)
    data hdl
  refine ⟨_, hser, ?_, rfl⟩
  have hnc : ¬ (data.length ≥ CompressThreshold ∧ (8:Nat) &&& FlagCompressed = 0) := by
    intro hc
    exact absurd hc.1 (by unfold CompressThreshold; omega)
  have hcs : compStage data 8 none = (data, 8) := by
    unfold compStage
    rw [if_neg hnc]
  have hes : encStage (data, 8) false none = .ok (data, 8) := by
    simp [encStage, FlagEncrypted]
    decide
  have h1 : ¬ data.length > 65535 := by omega
  have h2 : ¬ nowUnix > 4294967295 := by omega
  unfold Send
  rw [if_neg (by decide : ¬ (true = false)), if_neg h1, hcs, hes]
  show sendCore ConnVal.udp streamID opcode ProtoUDP data 8 nowUnix = _
  unfold sendCore
  rw [if_neg h1, if_neg h2]
  unfold sendDispatch
  rw [if_neg (by decide : ¬ (ProtoUDP = ProtoTCP)),
    if_pos (rfl : ProtoUDP = ProtoUDP),
    if_pos (by decide : ((8:Nat) &&& FlagReliable) ≠ 0), hser]

theorem C3_witness :
    ([9, 9] : List Nat).length < 512 ∧ (1000 : Nat) ≤ 4294967295 ∧
    ∃ bs, Serialize (sendHeader 7 1 ProtoUDP 8 ([9, 9] : List Nat).length 1000) [9, 9]
        = .ok bs ∧
      Send ConnVal.udp true 7 1 ProtoUDP [9, 9] 8 1000 none false none
        = .ok (SendAction.udpWrite bs) ∧
      (sendHeader 7 1 ProtoUDP 8 ([9, 9] : List Nat).length 1000).seq = 0 :=
  ⟨by decide, by decide, C3_theorem 7 1 1000 [9, 9] (by decide) (by decide)⟩

/-! ## TCP receive helper lemmas -/

/-- Every return of the TCP receive loop body — error or success —
leaves the connection in `StateIdle`. -/
theorem tcpStep_inr_idle (conn : TCPConnection) (stream : List Nat)
    (r : Except TCPError (PacketHeader × List Nat) × TCPConnection × List Nat)
    (h : tcpStep conn stream = .inr r) : r.2.1.recvState = TCPRecvState.idle := by
  unfold tcpStep at h
  split at h
  · exact absurd h (by simp)
  · split at h
    · split at h
      · injection h with h'
        subst h'
        rfl
      · exact absurd h (by simp)
    · exact absurd h (by simp)
  · split at h
    · split at h
      · injection h with h'
        subst h'
        rfl
      · exact absurd h (by simp)
    · exact absurd h (by simp)
  · split at h
    · split at h
      · injection h with h'
        subst h'
        rfl
      · exact absurd h (by simp)
    · exact absurd h (by simp)
  · split at h
    · injection h with h'
      subst h'
      rfl
    · injection h with h'
      subst h'
      rfl

set_option maxRecDepth 100000 in
/-- C9 counterexample: a valid 32-byte frame whose payload bytes are
delayed.  The first `TCPRecv` reads the 24 header bytes, then the
payload read fails; contrary to the claim the machine is reset to
`StateIdle`, not left in `StateReadingPayload`, and the next call —
now receiving exactly the remaining 8 bytes of the frame — fails
again instead of resuming, whereas a connection actually left
mid-frame (as the claim describes) would complete the packet. -/
theorem C9_counterexample :
    Serialize c9Hdr [1, 2, 3, 4] = .ok c9Frame ∧
    (TCPRecv NewTCPConnection (c9Frame.take 24)).1 = .error .readErr ∧
    (TCPRecv NewTCPConnection (c9Frame.take 24)).2.1.recvState = TCPRecvState.idle ∧
    (TCPRecv NewTCPConnection (c9Frame.take 24)).2.1.recvState
      ≠ TCPRecvState.readingPayload ∧
    (TCPRecv (TCPRecv NewTCPConnection (c9Frame.take 24)).2.1 (c9Frame.drop 24)).1
      = .error .readErr ∧
    (TCPRecv c9MidConn (c9Frame.drop 24)).1 = .ok (c9Hdr, [1, 2, 3, 4]) := by
  decide

/-- C9 (amended): whenever `TCPRecv` returns — any socket-level read
error, any codec error, or success — the state machine is reset to
`StateIdle`; no mid-frame state survives, and the next call starts a
fresh frame at the header (as spec §4.5 states, contradicting the
claim's sentence). -/
theorem C9_theorem (conn : TCPConnection) (stream : List Nat)
    (h : (TCPRecv conn stream).1 ≠ .error .outOfFuel) :
    (TCPRecv conn stream).2.1.recvState = TCPRecvState.idle := by
  have main : ∀ fuel c s, (tcpRecvLoop fuel c s).1 ≠ .error .outOfFuel →
      (tcpRecvLoop fuel c s).2.1.recvState = TCPRecvState.idle := by
    intro fuel
    induction fuel with
    | zero => intro c s hne; exact absurd rfl hne
    | succ fuel ih =>
      intro c s hne
      unfold tcpRecvLoop at hne ⊢
      rcases hstep : tcpStep c s with ⟨c', s'⟩ | r
      · rw [hstep] at hne
        exact ih c' s' hne
      · exact tcpStep_inr_idle c s r hstep
  exact main 6 conn stream h

theorem C9_witness :
    (TCPRecv NewTCPConnection []).1 = .error TCPError.readErr ∧
    (TCPRecv NewTCPConnection []).2.1.recvState = TCPRecvState.idle :=
  ⟨by decide, C9_theorem NewTCPConnection [] (by decide)⟩

end OverProto
